import Mathlib

/-!
dspdfviewer: resolution of the runtime configuration.

A shallow embedding of `src/runtimeconfiguration.cpp`.

The constructor `RuntimeConfiguration::RuntimeConfiguration(argc, argv)` declares its options
with boost::program_options, stores the parsed command line and then the parsed configuration
file into one `variables_map`, runs `notify`, and finally handles help/version, the range check
of the bottom pane height, the `full-page` flag and the implied options.

The option tables, the member fields, the accessors and everything after `notify(vm)` are
translated from the source file.  The library calls `command_line_parser(..).run()`,
`parse_config_file`, `store` and `notify` are modelled after boost::program_options at the level
of parsed option occurrences (key and value token); the lexical grammar of the command line and
of the configuration file is not modelled.
-/

namespace DSPdfViewer

/-! ## Option descriptions (source lines 48-135) -/

/-- Contents of a `boost::any` held by the variables map. -/
inductive AnyValue where
  | str (s : String)
  | bool (b : Bool)
  | unsigned (n : Nat)
  deriving DecidableEq, Repr

/-- The value semantic an option is declared with: no `value<>` at all (a flag),
`value<bool>(..)->default_value(b)`, `value<unsigned>(..)->default_value(n)`, or
`value<string>(..)` without a default. -/
inductive ValueSemantic where
  | untyped_value
  | bool_value (default_value : Bool)
  | unsigned_value (default_value : Nat)
  | string_value
  deriving DecidableEq, Repr

/-- One declared option: its long name and its value semantic. -/
structure option_description where
  long_name : String
  semantic : ValueSemantic
  deriving DecidableEq, Repr

/-- Group "Generic options". -/
def generic : List option_description :=
  [ ⟨"help", .untyped_value⟩,
    ⟨"version", .untyped_value⟩ ]

/-- Group "Options affecting program behaviour". -/
def global : List option_description :=
  [ ⟨"full-page", .untyped_value⟩,
    ⟨"prerender-previous-pages", .unsigned_value 3⟩,
    ⟨"prerender-next-pages", .unsigned_value 10⟩,
    ⟨"hyperlink-support", .bool_value true⟩,
    ⟨"cache-to-memory", .bool_value true⟩,
    ⟨"i3-workaround", .bool_value false⟩ ]

/-- Group "Options affecting the second screen". -/
def secondscreen : List option_description :=
  [ ⟨"use-second-screen", .bool_value true⟩,
    ⟨"presenter-area", .bool_value true⟩,
    ⟨"thumbnails", .bool_value true⟩,
    ⟨"wall-clock", .bool_value true⟩,
    ⟨"presentation-clock", .bool_value true⟩,
    ⟨"slide-clock", .bool_value true⟩,
    ⟨"bottom-pane-height", .unsigned_value 20⟩ ]

/-- Group "Hidden options": the positional document argument is bound to `pdf-file`. -/
def hidden : List option_description :=
  [ ⟨"pdf-file", .string_value⟩ ]

/-- The groups shown by the help text: `help.add(generic).add(global).add(secondscreen)`. -/
def help : List option_description :=
  generic ++ global ++ secondscreen

/-- Options accepted on the command line: `commandLineOptions.add(help).add(hidden)`. -/
def commandLineOptions : List option_description :=
  help ++ hidden

/-- Options accepted in the configuration file: `configFileOptions.add(global).add(secondscreen)`. -/
def configFileOptions : List option_description :=
  global ++ secondscreen

/-! ## Exceptions and parsed options -/

/-- The exceptions that leave the constructor or the accessors. -/
inductive Exception where
  | unknown_option (name : String)
  | multiple_occurrences (name : String)
  | invalid_option_value (token : String)
  | runtime_error (what : String)
  | noFileNameException
  deriving DecidableEq, Repr

/-- One option occurrence as a boost parser yields it: the long name of the option and its value
token.  A positional argument arrives with the key `pdf-file`; a flag written without a value
carries the empty token. -/
structure basic_option where
  string_key : String
  value : String
  deriving DecidableEq, Repr

/-- Lookup of an option description by its long name (exact match). -/
def findDescription (desc : List option_description) (name : String) :
    Option option_description :=
  desc.find? (fun d => d.long_name == name)

/-- The parsers reject an option whose name is not declared in the description they were given
(neither call in the source allows unregistered options); otherwise the occurrences are handed
on unchanged. -/
def runParser (desc : List option_description) :
    List basic_option → Except Exception (List basic_option)
  | [] => .ok []
  | o :: rest =>
    match findDescription desc o.string_key with
    | none => .error (.unknown_option o.string_key)
    | some _ =>
      match runParser desc rest with
      | .error e => .error e
      | .ok os => .ok (o :: os)

/-! ## Conversion of value tokens -/

/-- Conversion of a token to `bool` by boost: the token is lower-cased; the empty token, "on",
"yes", "1" and "true" give true; "off", "no", "0" and "false" give false. -/
def validateBool (token : String) : Option Bool :=
  let s := token.data.map Char.toLower
  if s = [] ∨ s = ['o', 'n'] ∨ s = ['y', 'e', 's'] ∨ s = ['1'] ∨ s = ['t', 'r', 'u', 'e'] then
    some true
  else if s = ['o', 'f', 'f'] ∨ s = ['n', 'o'] ∨ s = ['0'] ∨ s = ['f', 'a', 'l', 's', 'e'] then
    some false
  else
    none

/-- Value of a non-empty run of decimal digits that fits into 32 bits. -/
def digitsToUnsigned (cs : List Char) : Option Nat :=
  if cs = [] then none
  else if cs.all Char.isDigit then
    let n := cs.foldl (fun acc c => 10 * acc + (c.toNat - 48)) 0
    if n < 2 ^ 32 then some n else none
  else none

/-- Conversion of a token to `unsigned` by `lexical_cast`: an optional sign followed by decimal
digits; with a minus sign the magnitude is negated modulo 2^32. -/
def lexicalCastUnsigned (token : String) : Option Nat :=
  match token.data with
  | [] => none
  | c :: rest =>
    if c = '-' then (digitsToUnsigned rest).map (fun n => (2 ^ 32 - n) % 2 ^ 32)
    else if c = '+' then digitsToUnsigned rest
    else digitsToUnsigned (c :: rest)

/-- Parse of one value token under a value semantic. -/
def parseValue (sem : ValueSemantic) (token : String) : Except Exception AnyValue :=
  match sem with
  | .untyped_value => .ok (.str token)
  | .string_value => .ok (.str token)
  | .bool_value _ =>
    match validateBool token with
    | some b => .ok (.bool b)
    | none => .error (.invalid_option_value token)
  | .unsigned_value _ =>
    match lexicalCastUnsigned token with
    | some n => .ok (.unsigned n)
    | none => .error (.invalid_option_value token)

/-- The default value a semantic applies, if it has one. -/
def applyDefault : ValueSemantic → Option AnyValue
  | .untyped_value => none
  | .string_value => none
  | .bool_value b => some (.bool b)
  | .unsigned_value n => some (.unsigned n)

/-! ## The variables map and `store` -/

/-- An entry of the variables map: the value and whether it came from a default. -/
structure variable_value where
  value : AnyValue
  defaulted : Bool
  deriving DecidableEq, Repr

/-- The variables map: the entries by option name, and the names whose value is final. -/
structure variables_map where
  m : String → Option variable_value
  m_final : String → Bool

/-- The empty map `variables_map vm;`. -/
def variables_map.empty : variables_map :=
  ⟨fun _ => none, fun _ => false⟩

/-- Number of entries under a name, as `vm.count(name)`. -/
def variables_map.count (vm : variables_map) (name : String) : Nat :=
  if (vm.m name).isSome then 1 else 0

/-- Assignment `m[name] = v`. -/
def setEntry (m : String → Option variable_value) (name : String) (v : variable_value) :
    String → Option variable_value :=
  fun k => if k = name then some v else m k

/-- Insertion of a name into a set of names. -/
def insertName (s : String → Bool) (name : String) : String → Bool :=
  fun k => if k = name then true else s k

/-- One round of the first loop of `store`: an occurrence without a name or of an option that is
already final is skipped; otherwise its description is looked up, a defaulted entry is erased by
the explicit value, a second explicit value for the same option is a `multiple_occurrences`
error, the token is converted and stored, and the name is recorded as newly final. -/
def storeOption (desc : List option_description) (final : String → Bool) (o : basic_option)
    (m : String → Option variable_value) (newFinal : String → Bool) :
    Except Exception ((String → Option variable_value) × (String → Bool)) :=
  if o.string_key = "" then .ok (m, newFinal)
  else if final o.string_key then .ok (m, newFinal)
  else
    match findDescription desc o.string_key with
    | none => .error (.unknown_option o.string_key)
    | some d =>
      match m o.string_key with
      | some ⟨_, false⟩ => .error (.multiple_occurrences o.string_key)
      | _ =>
        match parseValue d.semantic o.value with
        | .error e => .error e
        | .ok v => .ok (setEntry m o.string_key ⟨v, false⟩, insertName newFinal o.string_key)

/-- First loop of `store`: the occurrences are converted and stored in order; the first error
ends the call. -/
def storeOptions (desc : List option_description) (final : String → Bool) :
    List basic_option → (String → Option variable_value) → (String → Bool) →
    Except Exception ((String → Option variable_value) × (String → Bool))
  | [], m, newFinal => .ok (m, newFinal)
  | o :: rest, m, newFinal =>
    match storeOption desc final o m newFinal with
    | .error e => .error e
    | .ok (m1, newFinal1) => storeOptions desc final rest m1 newFinal1

/-- Second loop of `store`: every declared option that has no entry yet and has a default value
gets that default, marked as defaulted. -/
def storeDefaults : List option_description → (String → Option variable_value) →
    (String → Option variable_value)
  | [], m => m
  | d :: rest, m =>
    if d.long_name = "" then storeDefaults rest m
    else
      match m d.long_name, applyDefault d.semantic with
      | none, some v => storeDefaults rest (setEntry m d.long_name ⟨v, true⟩)
      | _, _ => storeDefaults rest m

/-- Auxiliary, for stating what the second loop of `store` does to one name: the entry it gives
to a name that has none, which is the default of the first declared option of that name that has
a default value, marked as defaulted. -/
def defaultOf : List option_description → String → Option variable_value
  | [], _ => none
  | d :: rest, k =>
    if d.long_name = k ∧ d.long_name ≠ "" then
      match applyDefault d.semantic with
      | some v => some ⟨v, true⟩
      | none => defaultOf rest k
    else defaultOf rest k

/-- Auxiliary, for stating what the second loop of `store` does to one name: an existing entry
stays, a missing one is filled from the defaults. -/
def withDefault (desc : List option_description) (entry : Option variable_value) (k : String) :
    Option variable_value :=
  match entry with
  | some v => some v
  | none => defaultOf desc k

/-- The call `store(parsed, vm)`. -/
def store (desc : List option_description) (options : List basic_option) (xm : variables_map) :
    Except Exception variables_map :=
  match storeOptions desc xm.m_final options xm.m (fun _ => false) with
  | .error e => .error e
  | .ok (m, newFinal) =>
    .ok ⟨storeDefaults desc m, fun k => xm.m_final k || newFinal k⟩

/-! ## The configuration object -/

/-- The member fields of `RuntimeConfiguration`. -/
structure RuntimeConfiguration where
  m_useFullPage : Bool
  m_showPresenterArea : Bool
  m_showWallClock : Bool
  m_showThumbnails : Bool
  m_showPresentationClock : Bool
  m_showSlideClock : Bool
  m_filePath : String
  m_hyperlinkSupport : Bool
  m_cacheToMemory : Bool
  m_useSecondScreen : Bool
  m_i3workaround : Bool
  m_prerenderPreviousPages : Nat
  m_prerenderNextPages : Nat
  m_bottomPaneHeightPercent : Nat
  deriving DecidableEq, Repr

/-- The object on entry to the constructor body: `m_filePath` is the empty string; the other
members are not initialised by the source (every one of them is bound to an option with a default
value and is written by `notify`). -/
def RuntimeConfiguration.onEntry : RuntimeConfiguration :=
  { m_useFullPage := false, m_showPresenterArea := false, m_showWallClock := false,
    m_showThumbnails := false, m_showPresentationClock := false, m_showSlideClock := false,
    m_filePath := "", m_hyperlinkSupport := false, m_cacheToMemory := false,
    m_useSecondScreen := false, m_i3workaround := false, m_prerenderPreviousPages := 0,
    m_prerenderNextPages := 0, m_bottomPaneHeightPercent := 0 }

/-- Value written to a `bool` member bound to an option. -/
def notifyBool (vm : variables_map) (name : String) (old : Bool) : Bool :=
  match vm.m name with
  | some ⟨.bool b, _⟩ => b
  | _ => old

/-- Value written to an `unsigned` member bound to an option. -/
def notifyUnsigned (vm : variables_map) (name : String) (old : Nat) : Nat :=
  match vm.m name with
  | some ⟨.unsigned n, _⟩ => n
  | _ => old

/-- Value written to a `string` member bound to an option. -/
def notifyString (vm : variables_map) (name : String) (old : String) : String :=
  match vm.m name with
  | some ⟨.str s, _⟩ => s
  | _ => old

/-- The call `notify(vm)`: every stored value is written to the member its option was declared
with (`value<T>(&m_member)`); `full-page`, `help` and `version` are bound to no member. -/
def notify (vm : variables_map) (self : RuntimeConfiguration) : RuntimeConfiguration :=
  { self with
    m_prerenderPreviousPages :=
      notifyUnsigned vm "prerender-previous-pages" self.m_prerenderPreviousPages
    m_prerenderNextPages := notifyUnsigned vm "prerender-next-pages" self.m_prerenderNextPages
    m_hyperlinkSupport := notifyBool vm "hyperlink-support" self.m_hyperlinkSupport
    m_cacheToMemory := notifyBool vm "cache-to-memory" self.m_cacheToMemory
    m_i3workaround := notifyBool vm "i3-workaround" self.m_i3workaround
    m_useSecondScreen := notifyBool vm "use-second-screen" self.m_useSecondScreen
    m_showPresenterArea := notifyBool vm "presenter-area" self.m_showPresenterArea
    m_showThumbnails := notifyBool vm "thumbnails" self.m_showThumbnails
    m_showWallClock := notifyBool vm "wall-clock" self.m_showWallClock
    m_showPresentationClock := notifyBool vm "presentation-clock" self.m_showPresentationClock
    m_showSlideClock := notifyBool vm "slide-clock" self.m_showSlideClock
    m_bottomPaneHeightPercent :=
      notifyUnsigned vm "bottom-pane-height" self.m_bottomPaneHeightPercent
    m_filePath := notifyString vm "pdf-file" self.m_filePath }

/-- Source lines 137-147: the command line is parsed and stored, then the configuration file, if
it exists and is readable (`cfile = some entries`), is parsed and stored into the same map. -/
def storeSources (argv : List basic_option) (cfile : Option (List basic_option)) :
    Except Exception variables_map :=
  match runParser commandLineOptions argv with
  | .error e => .error e
  | .ok parsed =>
    match store commandLineOptions parsed variables_map.empty with
    | .error e => .error e
    | .ok vm =>
      match cfile with
      | none => .ok vm
      | some entries =>
        match runParser configFileOptions entries with
        | .error e => .error e
        | .ok parsedFile => store configFileOptions parsedFile vm

/-- The section "Implied options" (source lines 176-188). -/
def impliedOptions (self : RuntimeConfiguration) : RuntimeConfiguration :=
  let self :=
    if ! self.m_useSecondScreen then { self with m_showPresenterArea := false } else self
  if ! self.m_showPresenterArea then
    { self with
      m_showPresentationClock := false
      m_showWallClock := false
      m_showSlideClock := false
      m_showThumbnails := false }
  else self

/-- How the constructor ends: with a constructed object, with `exit(status)` after printing the
version or help text, or with an exception. -/
inductive Outcome where
  | constructed (self : RuntimeConfiguration)
  | exited (status : Nat)
  | thrown (e : Exception)
  deriving DecidableEq, Repr

/-- Source lines 149-188: what the constructor does after `notify(vm)`. -/
def afterNotify (vm : variables_map) (self : RuntimeConfiguration) : Outcome :=
  if 0 < vm.count "version" ∨ 0 < vm.count "help" then
    .exited 1
  else if self.m_bottomPaneHeightPercent < 1 ∨ 99 < self.m_bottomPaneHeightPercent then
    .thrown (.runtime_error "Invalid percent height specified")
  else
    .constructed (impliedOptions { self with m_useFullPage := decide (0 < vm.count "full-page") })

/-- The constructor `RuntimeConfiguration::RuntimeConfiguration(argc, argv)`. -/
def construct (argv : List basic_option) (cfile : Option (List basic_option)) : Outcome :=
  match storeSources argv cfile with
  | .error e => .thrown e
  | .ok vm => afterNotify vm (notify vm RuntimeConfiguration.onEntry)

/-! ## Accessors (source lines 191-277) -/

/-- Getter `filePath()`. -/
def RuntimeConfiguration.filePath (self : RuntimeConfiguration) : Except Exception String :=
  if self.m_filePath.isEmpty then .error .noFileNameException else .ok self.m_filePath

/-- Setter `filePath(newPath)`. -/
def RuntimeConfiguration.setFilePath (self : RuntimeConfiguration) (newPath : String) :
    RuntimeConfiguration :=
  { self with m_filePath := newPath }

/-- Query `filePathDefined()`. -/
def RuntimeConfiguration.filePathDefined (self : RuntimeConfiguration) : Bool :=
  ! self.m_filePath.isEmpty

/-- Accessor `useFullPage()`. -/
def RuntimeConfiguration.useFullPage (self : RuntimeConfiguration) : Bool :=
  self.m_useFullPage

/-- Accessor `showPresentationClock()`. -/
def RuntimeConfiguration.showPresentationClock (self : RuntimeConfiguration) : Bool :=
  self.m_showPresentationClock

/-- Accessor `showPresenterArea()`. -/
def RuntimeConfiguration.showPresenterArea (self : RuntimeConfiguration) : Bool :=
  self.m_showPresenterArea

/-- Accessor `showSlideClock()`. -/
def RuntimeConfiguration.showSlideClock (self : RuntimeConfiguration) : Bool :=
  self.m_showSlideClock

/-- Accessor `showThumbnails()`. -/
def RuntimeConfiguration.showThumbnails (self : RuntimeConfiguration) : Bool :=
  self.m_showThumbnails

/-- Accessor `showWallClock()`. -/
def RuntimeConfiguration.showWallClock (self : RuntimeConfiguration) : Bool :=
  self.m_showWallClock

/-- Accessor `prerenderNextPages()`. -/
def RuntimeConfiguration.prerenderNextPages (self : RuntimeConfiguration) : Nat :=
  self.m_prerenderNextPages

/-- Accessor `prerenderPreviousPages()`. -/
def RuntimeConfiguration.prerenderPreviousPages (self : RuntimeConfiguration) : Nat :=
  self.m_prerenderPreviousPages

/-- Accessor `useSecondScreen()`. -/
def RuntimeConfiguration.useSecondScreen (self : RuntimeConfiguration) : Bool :=
  self.m_useSecondScreen

/-- Accessor `cachePDFToMemory()`. -/
def RuntimeConfiguration.cachePDFToMemory (self : RuntimeConfiguration) : Bool :=
  self.m_cacheToMemory

/-- Accessor `bottomPaneHeight()`. -/
def RuntimeConfiguration.bottomPaneHeight (self : RuntimeConfiguration) : Nat :=
  self.m_bottomPaneHeightPercent

/-- Accessor `hyperlinkSupport()`. -/
def RuntimeConfiguration.hyperlinkSupport (self : RuntimeConfiguration) : Bool :=
  self.m_hyperlinkSupport

/-- Accessor `i3workaround()`. -/
def RuntimeConfiguration.i3workaround (self : RuntimeConfiguration) : Bool :=
  self.m_i3workaround

/-! ## The first loop of `store` -/

/-- A successful round either skips the occurrence or stores its converted value. -/
theorem storeOption_ok {desc : List option_description} {final : String → Bool}
    {o : basic_option} {m m1 : String → Option variable_value} {nf nf1 : String → Bool}
    (h : storeOption desc final o m nf = .ok (m1, nf1)) :
    ((o.string_key = "" ∨ final o.string_key = true) ∧ m1 = m ∧ nf1 = nf) ∨
    (o.string_key ≠ "" ∧ final o.string_key = false ∧
      (∀ w, m o.string_key ≠ some ⟨w, false⟩) ∧
      ∃ d v, findDescription desc o.string_key = some d ∧
        parseValue d.semantic o.value = .ok v ∧
        m1 = setEntry m o.string_key ⟨v, false⟩ ∧ nf1 = insertName nf o.string_key) := by
  unfold storeOption at h
  split at h
  · rename_i hk
    simp only [Except.ok.injEq, Prod.mk.injEq] at h
    exact Or.inl ⟨Or.inl hk, h.1.symm, h.2.symm⟩
  · rename_i hk
    split at h
    · rename_i hf
      simp only [Except.ok.injEq, Prod.mk.injEq] at h
      exact Or.inl ⟨Or.inr hf, h.1.symm, h.2.symm⟩
    · rename_i hf
      split at h
      · exact absurd h (by simp)
      · rename_i d hd
        split at h
        · exact absurd h (by simp)
        · rename_i hm
          split at h
          · exact absurd h (by simp)
          · rename_i v hv
            simp only [Except.ok.injEq, Prod.mk.injEq] at h
            refine Or.inr ⟨hk, by simpa using hf, ?_, d, v, hd, hv, h.1.symm, h.2.symm⟩
            intro w hw
            exact hm w hw

/-- The round of an occurrence that is neither nameless nor final, whose option is declared,
has no explicit value yet and whose token converts. -/
theorem storeOption_store {desc : List option_description} {final : String → Bool}
    {o : basic_option} {m : String → Option variable_value} {nf : String → Bool}
    {d : option_description} {v : AnyValue}
    (hk : o.string_key ≠ "") (hf : final o.string_key = false)
    (hd : findDescription desc o.string_key = some d)
    (hm : ∀ w, m o.string_key ≠ some ⟨w, false⟩)
    (hv : parseValue d.semantic o.value = .ok v) :
    storeOption desc final o m nf =
      .ok (setEntry m o.string_key ⟨v, false⟩, insertName nf o.string_key) := by
  unfold storeOption
  rw [if_neg hk, hf]
  simp only [Bool.false_eq_true, if_false, hd, hv]

/-- The round of an occurrence that is nameless or final changes nothing. -/
theorem storeOption_skip {desc : List option_description} {final : String → Bool}
    {o : basic_option} {m : String → Option variable_value} {nf : String → Bool}
    (h : o.string_key = "" ∨ final o.string_key = true) :
    storeOption desc final o m nf = .ok (m, nf) := by
  unfold storeOption
  by_cases hk : o.string_key = ""
  · rw [if_pos hk]
  · rw [if_neg hk]
    rcases h with h | h
    · exact absurd h hk
    · rw [h]; rfl

theorem setEntry_same (m : String → Option variable_value) (k : String) (v : variable_value) :
    setEntry m k v k = some v := by
  simp [setEntry]

theorem setEntry_other (m : String → Option variable_value) {k j : String} (v : variable_value)
    (h : j ≠ k) : setEntry m k v j = m j := by
  simp [setEntry, h]

theorem insertName_same (s : String → Bool) (k : String) : insertName s k k = true := by
  simp [insertName]

theorem insertName_other (s : String → Bool) {k j : String} (h : j ≠ k) :
    insertName s k j = s j := by
  simp [insertName, h]

/-- Unfolding of the loop at a non-empty list of occurrences. -/
theorem storeOptions_cons_ok {desc : List option_description} {final : String → Bool}
    {o : basic_option} {rest : List basic_option}
    {m m2 : String → Option variable_value} {nf nf2 : String → Bool}
    (h : storeOptions desc final (o :: rest) m nf = .ok (m2, nf2)) :
    ∃ m1 nf1, storeOption desc final o m nf = .ok (m1, nf1) ∧
      storeOptions desc final rest m1 nf1 = .ok (m2, nf2) := by
  unfold storeOptions at h
  split at h
  · exact absurd h (by simp)
  · rename_i m1 nf1 h1
    exact ⟨m1, nf1, h1, h⟩

/-- A name that no occurrence carries keeps its entry and its finality mark. -/
theorem storeOptions_frame {desc : List option_description} {final : String → Bool} (k : String) :
    ∀ (opts : List basic_option) (m m2 : String → Option variable_value) (nf nf2 : String → Bool),
      storeOptions desc final opts m nf = .ok (m2, nf2) →
      (∀ o ∈ opts, o.string_key ≠ k) → m2 k = m k ∧ nf2 k = nf k := by
  intro opts
  induction opts with
  | nil =>
    intro m m2 nf nf2 h _
    simp only [storeOptions, Except.ok.injEq, Prod.mk.injEq] at h
    exact ⟨by rw [h.1], by rw [h.2]⟩
  | cons o rest ih =>
    intro m m2 nf nf2 h hk
    obtain ⟨m1, nf1, h1, h2⟩ := storeOptions_cons_ok h
    have hok : o.string_key ≠ k := hk o (List.mem_cons_self _ _)
    have hrest := ih m1 m2 nf1 nf2 h2 (fun x hx => hk x (List.mem_cons_of_mem _ hx))
    rcases storeOption_ok h1 with ⟨_, rfl, rfl⟩ | ⟨_, _, _, d, v, _, _, rfl, rfl⟩
    · exact hrest
    · rw [hrest.1, hrest.2, setEntry_other _ _ (Ne.symm hok), insertName_other _ (Ne.symm hok)]
      exact ⟨rfl, rfl⟩

/-- An explicit value survives the rest of the loop. -/
theorem storeOptions_keep {desc : List option_description} {final : String → Bool} (k : String)
    (w : AnyValue) :
    ∀ (opts : List basic_option) (m m2 : String → Option variable_value) (nf nf2 : String → Bool),
      storeOptions desc final opts m nf = .ok (m2, nf2) →
      m k = some ⟨w, false⟩ → m2 k = some ⟨w, false⟩ := by
  intro opts
  induction opts with
  | nil =>
    intro m m2 nf nf2 h hm
    simp only [storeOptions, Except.ok.injEq, Prod.mk.injEq] at h
    rw [← h.1]; exact hm
  | cons o rest ih =>
    intro m m2 nf nf2 h hm
    obtain ⟨m1, nf1, h1, h2⟩ := storeOptions_cons_ok h
    rcases storeOption_ok h1 with ⟨_, rfl, rfl⟩ | ⟨_, _, hne, d, v, _, _, rfl, rfl⟩
    · exact ih _ _ _ _ h2 hm
    · apply ih _ _ _ _ h2
      have hok : k ≠ o.string_key := by
        intro hEq
        exact hne w (hEq ▸ hm)
      rw [setEntry_other _ _ hok]; exact hm

/-- The mark of a newly final name survives the rest of the loop. -/
theorem storeOptions_newFinal_mono {desc : List option_description} {final : String → Bool}
    (k : String) :
    ∀ (opts : List basic_option) (m m2 : String → Option variable_value) (nf nf2 : String → Bool),
      storeOptions desc final opts m nf = .ok (m2, nf2) → nf k = true → nf2 k = true := by
  intro opts
  induction opts with
  | nil =>
    intro m m2 nf nf2 h hm
    simp only [storeOptions, Except.ok.injEq, Prod.mk.injEq] at h
    rw [← h.2]; exact hm
  | cons o rest ih =>
    intro m m2 nf nf2 h hm
    obtain ⟨m1, nf1, h1, h2⟩ := storeOptions_cons_ok h
    rcases storeOption_ok h1 with ⟨_, rfl, rfl⟩ | ⟨_, _, _, d, v, _, _, rfl, rfl⟩
    · exact ih _ _ _ _ h2 hm
    · apply ih _ _ _ _ h2
      unfold insertName
      split
      · rfl
      · exact hm

/-- The entry of a name that is already final is not touched by the loop. -/
theorem storeOptions_final {desc : List option_description} {final : String → Bool} (k : String)
    (hf : final k = true) :
    ∀ (opts : List basic_option) (m m2 : String → Option variable_value) (nf nf2 : String → Bool),
      storeOptions desc final opts m nf = .ok (m2, nf2) → m2 k = m k ∧ nf2 k = nf k := by
  intro opts
  induction opts with
  | nil =>
    intro m m2 nf nf2 h
    simp only [storeOptions, Except.ok.injEq, Prod.mk.injEq] at h
    exact ⟨by rw [h.1], by rw [h.2]⟩
  | cons o rest ih =>
    intro m m2 nf nf2 h
    obtain ⟨m1, nf1, h1, h2⟩ := storeOptions_cons_ok h
    have hrest := ih _ _ _ _ h2
    rcases storeOption_ok h1 with ⟨_, rfl, rfl⟩ | ⟨_, hnf, _, d, v, _, _, rfl, rfl⟩
    · exact hrest
    · have hok : k ≠ o.string_key := by
        intro hEq
        rw [hEq, hnf] at hf
        exact absurd hf (by simp)
      rw [hrest.1, hrest.2, setEntry_other _ _ hok, insertName_other _ hok]
      exact ⟨rfl, rfl⟩

/-- Every occurrence that is neither nameless nor final has its converted token stored as an
explicit value, and its name is newly final. -/
theorem storeOptions_stored {desc : List option_description} {final : String → Bool} :
    ∀ (opts : List basic_option) (m m2 : String → Option variable_value) (nf nf2 : String → Bool),
      storeOptions desc final opts m nf = .ok (m2, nf2) →
      ∀ o ∈ opts, o.string_key ≠ "" → final o.string_key = false →
        ∃ d v, findDescription desc o.string_key = some d ∧
          parseValue d.semantic o.value = .ok v ∧
          m2 o.string_key = some ⟨v, false⟩ ∧ nf2 o.string_key = true := by
  intro opts
  induction opts with
  | nil =>
    intro m m2 nf nf2 _ o ho
    exact absurd ho (List.not_mem_nil _)
  | cons x rest ih =>
    intro m m2 nf nf2 h o ho hk hf
    obtain ⟨m1, nf1, h1, h2⟩ := storeOptions_cons_ok h
    rcases List.mem_cons.mp ho with rfl | hmem
    · rcases storeOption_ok h1 with ⟨hskip, _, _⟩ | ⟨_, _, _, d, v, hd, hv, rfl, rfl⟩
      · rcases hskip with hs | hs
        · exact absurd hs hk
        · rw [hs] at hf; exact absurd hf (by simp)
      · exact ⟨d, v, hd, hv,
          storeOptions_keep _ v rest _ _ _ _ h2 (setEntry_same _ _ _),
          storeOptions_newFinal_mono _ rest _ _ _ _ h2 (insertName_same _ _)⟩
    · exact ih _ _ _ _ h2 o hmem hk hf

/-! ## The second loop of `store`, the parsers, and `store` as a whole -/

/-- Pointwise description of the second loop. -/
theorem storeDefaults_apply (k : String) :
    ∀ (desc : List option_description) (m : String → Option variable_value),
      storeDefaults desc m k = withDefault desc (m k) k := by
  intro desc
  induction desc with
  | nil =>
    intro m
    unfold storeDefaults withDefault defaultOf
    cases m k <;> rfl
  | cons d rest ih =>
    intro m
    unfold storeDefaults
    by_cases hd : d.long_name = ""
    · rw [if_pos hd, ih]
      unfold withDefault
      cases m k with
      | some v => rfl
      | none =>
        show defaultOf rest k = defaultOf (d :: rest) k
        rw [defaultOf, if_neg (fun h => h.2 hd)]
    · rw [if_neg hd]
      cases hm : m d.long_name with
      | some w =>
        simp only
        rw [ih]
        unfold withDefault
        cases hk : m k with
        | some v => rfl
        | none =>
          show defaultOf rest k = defaultOf (d :: rest) k
          have hne : d.long_name ≠ k := by
            intro hEq
            rw [hEq, hk] at hm
            exact absurd hm (by simp)
          rw [defaultOf, if_neg (fun h => hne h.1)]
      | none =>
        cases ha : applyDefault d.semantic with
        | none =>
          simp only
          rw [ih]
          unfold withDefault
          cases m k with
          | some v => rfl
          | none =>
            show defaultOf rest k = defaultOf (d :: rest) k
            rw [defaultOf, ha]
            split <;> rfl
        | some v =>
          simp only
          rw [ih]
          by_cases hk : k = d.long_name
          · subst hk
            rw [setEntry_same, hm]
            unfold withDefault
            show some _ = defaultOf (d :: rest) d.long_name
            rw [defaultOf, if_pos ⟨rfl, hd⟩, ha]
          · rw [setEntry_other _ _ hk]
            unfold withDefault
            cases m k with
            | some v => rfl
            | none =>
              show defaultOf rest k = defaultOf (d :: rest) k
              rw [defaultOf, if_neg (fun h => hk h.1.symm)]

/-- A successful parse hands the occurrences on unchanged, and each of them is declared. -/
theorem runParser_ok {desc : List option_description} :
    ∀ (opts parsed : List basic_option), runParser desc opts = .ok parsed →
      parsed = opts ∧ ∀ o ∈ opts, ∃ d, findDescription desc o.string_key = some d := by
  intro opts
  induction opts with
  | nil =>
    intro parsed h
    simp only [runParser, Except.ok.injEq] at h
    exact ⟨h.symm, fun o ho => absurd ho (List.not_mem_nil _)⟩
  | cons x rest ih =>
    intro parsed h
    unfold runParser at h
    split at h
    · exact absurd h (by simp)
    · rename_i d hd
      split at h
      · exact absurd h (by simp)
      · rename_i os hos
        simp only [Except.ok.injEq] at h
        obtain ⟨rfl, hall⟩ := ih os hos
        refine ⟨h.symm, ?_⟩
        intro o ho
        rcases List.mem_cons.mp ho with rfl | hmem
        · exact ⟨d, hd⟩
        · exact hall o hmem

/-- Occurrences that are all declared parse. -/
theorem runParser_of_declared {desc : List option_description} :
    ∀ (opts : List basic_option),
      (∀ o ∈ opts, ∃ d, findDescription desc o.string_key = some d) →
      runParser desc opts = .ok opts := by
  intro opts
  induction opts with
  | nil => intro _; rfl
  | cons x rest ih =>
    intro h
    obtain ⟨d, hd⟩ := h x (List.mem_cons_self _ _)
    unfold runParser
    rw [hd, ih (fun o ho => h o (List.mem_cons_of_mem _ ho))]

/-- An occurrence of an undeclared option makes the parse fail with `unknown_option`. -/
theorem runParser_unknown {desc : List option_description} :
    ∀ (opts : List basic_option),
      (∃ o ∈ opts, findDescription desc o.string_key = none) →
      ∃ k, findDescription desc k = none ∧ runParser desc opts = .error (.unknown_option k) := by
  intro opts
  induction opts with
  | nil =>
    rintro ⟨o, ho, _⟩
    exact absurd ho (List.not_mem_nil _)
  | cons x rest ih =>
    rintro ⟨o, ho, hnone⟩
    cases hx : findDescription desc x.string_key with
    | none =>
      refine ⟨x.string_key, hx, ?_⟩
      unfold runParser
      rw [hx]
    | some d =>
      rcases List.mem_cons.mp ho with rfl | hmem
      · rw [hx] at hnone
        exact absurd hnone (by simp)
      · obtain ⟨k, hk, hrun⟩ := ih ⟨o, hmem, hnone⟩
        refine ⟨k, hk, ?_⟩
        unfold runParser
        rw [hx, hrun]

/-- Unfolding of a successful `store`. -/
theorem store_ok {desc : List option_description} {opts : List basic_option}
    {xm xm1 : variables_map} (h : store desc opts xm = .ok xm1) :
    ∃ m nf, storeOptions desc xm.m_final opts xm.m (fun _ => false) = .ok (m, nf) ∧
      xm1.m = storeDefaults desc m ∧ xm1.m_final = fun k => xm.m_final k || nf k := by
  unfold store at h
  split at h
  · exact absurd h (by simp)
  · rename_i m nf hloop
    simp only [Except.ok.injEq] at h
    subst h
    exact ⟨m, nf, hloop, rfl, rfl⟩

/-- After `store`, an occurrence that is neither nameless nor final has its converted token as
an explicit entry, and its name is final. -/
theorem store_stored {desc : List option_description} {opts : List basic_option}
    {xm xm1 : variables_map} (h : store desc opts xm = .ok xm1)
    {o : basic_option} (ho : o ∈ opts) (hk : o.string_key ≠ "")
    (hf : xm.m_final o.string_key = false) :
    ∃ d v, findDescription desc o.string_key = some d ∧
      parseValue d.semantic o.value = .ok v ∧
      xm1.m o.string_key = some ⟨v, false⟩ ∧ xm1.m_final o.string_key = true := by
  obtain ⟨m, nf, hloop, hm, hfin⟩ := store_ok h
  obtain ⟨d, v, hd, hv, hmv, hnf⟩ := storeOptions_stored opts _ _ _ _ hloop o ho hk hf
  refine ⟨d, v, hd, hv, ?_, ?_⟩
  · rw [hm, storeDefaults_apply, hmv]; rfl
  · rw [hfin]; simp [hnf]

/-- After `store`, a name that was final before keeps its entry. -/
theorem store_final {desc : List option_description} {opts : List basic_option}
    {xm xm1 : variables_map} (h : store desc opts xm = .ok xm1)
    {k : String} (hf : xm.m_final k = true) :
    xm1.m k = withDefault desc (xm.m k) k ∧ xm1.m_final k = true := by
  obtain ⟨m, nf, hloop, hm, hfin⟩ := store_ok h
  have hkeep := storeOptions_final k hf opts _ _ _ _ hloop
  refine ⟨?_, ?_⟩
  · rw [hm, storeDefaults_apply, hkeep.1]
  · rw [hfin]; simp [hf]

/-- After `store`, a name that no occurrence carries keeps its entry, or gets its default. -/
theorem store_frame {desc : List option_description} {opts : List basic_option}
    {xm xm1 : variables_map} (h : store desc opts xm = .ok xm1)
    {k : String} (hk : ∀ o ∈ opts, o.string_key ≠ k) :
    xm1.m k = withDefault desc (xm.m k) k ∧ xm1.m_final k = xm.m_final k := by
  obtain ⟨m, nf, hloop, hm, hfin⟩ := store_ok h
  have hkeep := storeOptions_frame k opts _ _ _ _ hloop hk
  refine ⟨?_, ?_⟩
  · rw [hm, storeDefaults_apply, hkeep.1]
  · rw [hfin]; simp [hkeep.2]

/-! ## The two sources together -/

/-- A description that is found carries the name looked up and is in the list. -/
theorem findDescription_some {desc : List option_description} {k : String}
    {d : option_description} (h : findDescription desc k = some d) :
    d.long_name = k ∧ d ∈ desc := by
  unfold findDescription at h
  have h1 := List.find?_some h
  exact ⟨by simpa using h1, List.mem_of_find?_eq_some h⟩

/-- No declared option has the empty name. -/
theorem declared_ne_empty {k : String} {d : option_description}
    (h : findDescription commandLineOptions k = some d) : k ≠ "" := by
  intro hk
  subst hk
  have hnone : findDescription commandLineOptions "" = none := by decide
  rw [hnone] at h
  exact absurd h (by simp)

/-- Every option of the configuration file is an option of the command line, with the same
description. -/
theorem configFile_declared {k : String} {d : option_description}
    (h : findDescription configFileOptions k = some d) :
    findDescription commandLineOptions k = some d := by
  obtain ⟨hname, hmem⟩ := findDescription_some h
  subst hname
  simp only [configFileOptions, global, secondscreen, List.cons_append, List.nil_append,
    List.mem_cons, List.mem_singleton, List.not_mem_nil, or_false] at hmem
  rcases hmem with rfl | rfl | rfl | rfl | rfl | rfl | rfl | rfl | rfl | rfl | rfl | rfl | rfl <;>
    decide

/-- A default comes from a declared option of that name. -/
theorem defaultOf_some :
    ∀ (desc : List option_description) (k : String) (v : variable_value),
      defaultOf desc k = some v → ∃ d ∈ desc, d.long_name = k := by
  intro desc
  induction desc with
  | nil =>
    intro k v h
    simp [defaultOf] at h
  | cons x rest ih =>
    intro k v h
    unfold defaultOf at h
    split at h
    · rename_i hx
      exact ⟨x, List.mem_cons_self _ _, hx.1⟩
    · obtain ⟨d, hd, hk⟩ := ih k v h
      exact ⟨d, List.mem_cons_of_mem _ hd, hk⟩

/-- The defaults of the configuration-file options are those of the command-line options. -/
theorem defaultOf_configFile (k : String) :
    withDefault configFileOptions (defaultOf commandLineOptions k) k =
      defaultOf commandLineOptions k := by
  cases hc : defaultOf commandLineOptions k with
  | some v => rfl
  | none =>
    show defaultOf configFileOptions k = none
    cases hf : defaultOf configFileOptions k with
    | none => rfl
    | some v =>
      exfalso
      obtain ⟨d, hmem, hname⟩ := defaultOf_some _ _ _ hf
      subst hname
      simp only [configFileOptions, global, secondscreen, List.cons_append, List.nil_append,
        List.mem_cons, List.mem_singleton, List.not_mem_nil, or_false] at hmem
      rcases hmem with
        rfl | rfl | rfl | rfl | rfl | rfl | rfl | rfl | rfl | rfl | rfl | rfl | rfl
      · have hnone : defaultOf configFileOptions "full-page" = none := by decide
        rw [show (option_description.mk "full-page" .untyped_value).long_name = "full-page"
          from rfl, hnone] at hf
        exact absurd hf (by simp)
      all_goals exact absurd hc (by decide)

/-- Unfolding of a successful run of both sources. -/
theorem storeSources_ok {argv : List basic_option} {cfile : Option (List basic_option)}
    {vm : variables_map} (h : storeSources argv cfile = .ok vm) :
    ∃ vm1, (∀ o ∈ argv, ∃ d, findDescription commandLineOptions o.string_key = some d) ∧
      store commandLineOptions argv variables_map.empty = .ok vm1 ∧
      ((cfile = none ∧ vm = vm1) ∨
       ∃ entries, cfile = some entries ∧
         (∀ o ∈ entries, ∃ d, findDescription configFileOptions o.string_key = some d) ∧
         store configFileOptions entries vm1 = .ok vm) := by
  unfold storeSources at h
  split at h
  · exact absurd h (by simp)
  · rename_i parsed hparsed
    obtain ⟨rfl, hdecl⟩ := runParser_ok _ _ hparsed
    split at h
    · exact absurd h (by simp)
    · rename_i vm1 hvm1
      refine ⟨vm1, hdecl, hvm1, ?_⟩
      cases cfile with
      | none =>
        simp only [Except.ok.injEq] at h
        exact Or.inl ⟨rfl, h.symm⟩
      | some entries =>
        simp only at h
        split at h
        · exact absurd h (by simp)
        · rename_i parsedFile hpf
          obtain ⟨rfl, hdeclf⟩ := runParser_ok _ _ hpf
          exact Or.inr ⟨parsedFile, rfl, hdeclf, h⟩

/-- A value given on the command line is the merged value. -/
theorem merged_of_commandLine {argv : List basic_option} {cfile : Option (List basic_option)}
    {vm : variables_map} (h : storeSources argv cfile = .ok vm)
    {o : basic_option} (ho : o ∈ argv) :
    ∃ d v, findDescription commandLineOptions o.string_key = some d ∧
      parseValue d.semantic o.value = .ok v ∧ vm.m o.string_key = some ⟨v, false⟩ := by
  obtain ⟨vm1, hdecl, hstore, hrest⟩ := storeSources_ok h
  obtain ⟨d0, hd0⟩ := hdecl o ho
  obtain ⟨d, v, hd, hv, hm, hfin⟩ :=
    store_stored hstore ho (declared_ne_empty hd0) (by rfl)
  refine ⟨d, v, hd, hv, ?_⟩
  rcases hrest with ⟨_, rfl⟩ | ⟨entries, _, _, hstore2⟩
  · exact hm
  · rw [(store_final hstore2 hfin).1, hm]; rfl

/-- A value given in the configuration file, for an option the command line does not give, is
the merged value. -/
theorem merged_of_configFile {argv entries : List basic_option} {vm : variables_map}
    (h : storeSources argv (some entries) = .ok vm)
    {o : basic_option} (ho : o ∈ entries) (hk : ∀ x ∈ argv, x.string_key ≠ o.string_key) :
    ∃ d v, findDescription configFileOptions o.string_key = some d ∧
      parseValue d.semantic o.value = .ok v ∧ vm.m o.string_key = some ⟨v, false⟩ := by
  obtain ⟨vm1, _, hstore, hrest⟩ := storeSources_ok h
  rcases hrest with ⟨hnone, _⟩ | ⟨entries1, hsome, hdecl, hstore2⟩
  · exact absurd hnone (by simp)
  · simp only [Option.some.injEq] at hsome
    subst hsome
    obtain ⟨d0, hd0⟩ := hdecl o ho
    have hfin : vm1.m_final o.string_key = false := by
      rw [(store_frame hstore hk).2]; rfl
    obtain ⟨d, v, hd, hv, hm, _⟩ :=
      store_stored hstore2 ho (declared_ne_empty (configFile_declared hd0)) hfin
    exact ⟨d, v, hd, hv, hm⟩

/-- An option that neither source gives has its default as merged value (and no entry at all
when it has no default). -/
theorem merged_of_default {argv : List basic_option} {cfile : Option (List basic_option)}
    {vm : variables_map} (h : storeSources argv cfile = .ok vm) {k : String}
    (hk : ∀ x ∈ argv, x.string_key ≠ k)
    (hc : ∀ entries, cfile = some entries → ∀ x ∈ entries, x.string_key ≠ k) :
    vm.m k = defaultOf commandLineOptions k := by
  obtain ⟨vm1, _, hstore, hrest⟩ := storeSources_ok h
  have h1 : vm1.m k = defaultOf commandLineOptions k := by
    rw [(store_frame hstore hk).1]; rfl
  rcases hrest with ⟨_, rfl⟩ | ⟨entries, hsome, _, hstore2⟩
  · exact h1
  · rw [(store_frame hstore2 (hc entries hsome)).1, h1]
    exact defaultOf_configFile k

/-! ## The constructor after `notify` -/

/-- What a constructed object tells about the run of the constructor. -/
theorem construct_constructed {argv : List basic_option} {cfile : Option (List basic_option)}
    {c : RuntimeConfiguration} (h : construct argv cfile = .constructed c) :
    ∃ vm, storeSources argv cfile = .ok vm ∧
      vm.count "version" = 0 ∧ vm.count "help" = 0 ∧
      1 ≤ (notify vm RuntimeConfiguration.onEntry).m_bottomPaneHeightPercent ∧
      (notify vm RuntimeConfiguration.onEntry).m_bottomPaneHeightPercent ≤ 99 ∧
      c = impliedOptions { notify vm RuntimeConfiguration.onEntry with
            m_useFullPage := decide (0 < vm.count "full-page") } := by
  unfold construct at h
  split at h
  · exact absurd h (by simp)
  · rename_i vm hvm
    refine ⟨vm, hvm, ?_⟩
    unfold afterNotify at h
    split at h
    · exact absurd h (by simp)
    · rename_i hinfo
      split at h
      · exact absurd h (by simp)
      · rename_i hrange
        simp only [Outcome.constructed.injEq] at h
        refine ⟨by omega, by omega, by omega, by omega, h.symm⟩

/-- The run of the constructor from a merged state without help or version request and with
the bottom pane height in range. -/
theorem construct_of_merged {argv : List basic_option} {cfile : Option (List basic_option)}
    {vm : variables_map} (hstore : storeSources argv cfile = .ok vm)
    (hversion : vm.count "version" = 0) (hhelp : vm.count "help" = 0)
    (hlo : 1 ≤ (notify vm RuntimeConfiguration.onEntry).m_bottomPaneHeightPercent)
    (hhi : (notify vm RuntimeConfiguration.onEntry).m_bottomPaneHeightPercent ≤ 99) :
    construct argv cfile = .constructed
      (impliedOptions { notify vm RuntimeConfiguration.onEntry with
        m_useFullPage := decide (0 < vm.count "full-page") }) := by
  unfold construct
  rw [hstore]
  show afterNotify vm _ = _
  unfold afterNotify
  rw [if_neg (by omega), if_neg (by omega)]

/-- The implied options leave the members outside the presenter area alone. -/
theorem impliedOptions_frame (s : RuntimeConfiguration) :
    (impliedOptions s).m_bottomPaneHeightPercent = s.m_bottomPaneHeightPercent ∧
    (impliedOptions s).m_useSecondScreen = s.m_useSecondScreen ∧
    (impliedOptions s).m_useFullPage = s.m_useFullPage ∧
    (impliedOptions s).m_filePath = s.m_filePath := by
  cases s with
  | mk fp pa wc th pc sc path hl cm us i3 pp np bph =>
    cases us <;> cases pa <;> simp [impliedOptions]

/-- After the implied options, a hidden second screen hides the presenter area, and a hidden
presenter area hides the clocks and the thumbnails. -/
theorem impliedOptions_hidden (s : RuntimeConfiguration) :
    (s.m_useSecondScreen = false → (impliedOptions s).m_showPresenterArea = false) ∧
    ((impliedOptions s).m_showPresenterArea = false →
      (impliedOptions s).m_showPresentationClock = false ∧
      (impliedOptions s).m_showWallClock = false ∧
      (impliedOptions s).m_showSlideClock = false ∧
      (impliedOptions s).m_showThumbnails = false) := by
  cases s with
  | mk fp pa wc th pc sc path hl cm us i3 pp np bph =>
    cases us <;> cases pa <;> simp [impliedOptions]

/-! ## The members that the constructor does not initialise -/

/-- A token converted under a `bool` semantic is a `bool`. -/
theorem parseValue_bool {b : Bool} {token : String} {v : AnyValue}
    (h : parseValue (.bool_value b) token = .ok v) : ∃ x, v = .bool x := by
  simp only [parseValue] at h
  split at h
  · simp only [Except.ok.injEq] at h
    exact ⟨_, h.symm⟩
  · exact absurd h (by simp)

/-- A token converted under an `unsigned` semantic is an `unsigned`. -/
theorem parseValue_unsigned {n : Nat} {token : String} {v : AnyValue}
    (h : parseValue (.unsigned_value n) token = .ok v) : ∃ x, v = .unsigned x := by
  simp only [parseValue] at h
  split at h
  · simp only [Except.ok.injEq] at h
    exact ⟨_, h.symm⟩
  · exact absurd h (by simp)

/-- After both sources are stored, every option of the configuration-file groups has as entry
either a converted token or its default. -/
theorem merged_entry {argv : List basic_option} {cfile : Option (List basic_option)}
    {vm : variables_map} (h : storeSources argv cfile = .ok vm) {d : option_description}
    (hd : d ∈ configFileOptions) :
    (∃ token v, parseValue d.semantic token = .ok v ∧ vm.m d.long_name = some ⟨v, false⟩) ∨
    vm.m d.long_name = (applyDefault d.semantic).map (fun v => ⟨v, true⟩) := by
  have hfind : findDescription configFileOptions d.long_name = some d ∧
      defaultOf commandLineOptions d.long_name =
        (applyDefault d.semantic).map (fun v => ⟨v, true⟩) := by
    simp only [configFileOptions, global, secondscreen, List.cons_append, List.nil_append,
      List.mem_cons, List.mem_singleton, List.not_mem_nil, or_false] at hd
    rcases hd with rfl | rfl | rfl | rfl | rfl | rfl | rfl | rfl | rfl | rfl | rfl | rfl | rfl <;>
      exact ⟨by decide, by decide⟩
  by_cases hargv : ∃ o ∈ argv, o.string_key = d.long_name
  · obtain ⟨o, ho, hk⟩ := hargv
    obtain ⟨d1, v, hd1, hv, hm⟩ := merged_of_commandLine h ho
    rw [hk, configFile_declared hfind.1] at hd1
    simp only [Option.some.injEq] at hd1
    subst hd1
    rw [hk] at hm
    exact Or.inl ⟨o.value, v, hv, hm⟩
  · have hno : ∀ x ∈ argv, x.string_key ≠ d.long_name := fun x hx hk => hargv ⟨x, hx, hk⟩
    by_cases hfile : ∃ entries, cfile = some entries ∧ ∃ o ∈ entries, o.string_key = d.long_name
    · obtain ⟨entries, rfl, o, ho, hk⟩ := hfile
      obtain ⟨d1, v, hd1, hv, hm⟩ := merged_of_configFile h ho (by rw [hk]; exact hno)
      rw [hk, hfind.1] at hd1
      simp only [Option.some.injEq] at hd1
      subst hd1
      rw [hk] at hm
      exact Or.inl ⟨o.value, v, hv, hm⟩
    · right
      rw [merged_of_default h hno
        (fun entries he x hx hk => hfile ⟨entries, he, x, hx, hk⟩)]
      exact hfind.2

/-- After both sources are stored, `notify` writes every `bool` member that is bound to an
option, whatever the member held before. -/
theorem notifyBool_written {argv : List basic_option} {cfile : Option (List basic_option)}
    {vm : variables_map} (h : storeSources argv cfile = .ok vm) (name : String) (b : Bool)
    (hd : (⟨name, .bool_value b⟩ : option_description) ∈ configFileOptions) (old1 old2 : Bool) :
    notifyBool vm name old1 = notifyBool vm name old2 := by
  rcases merged_entry h hd with ⟨token, v, hv, hm⟩ | hm
  · obtain ⟨x, rfl⟩ := parseValue_bool hv
    simp only [notifyBool, hm]
  · simp only [notifyBool, hm, applyDefault, Option.map_some']

/-- After both sources are stored, `notify` writes every `unsigned` member that is bound to an
option, whatever the member held before. -/
theorem notifyUnsigned_written {argv : List basic_option} {cfile : Option (List basic_option)}
    {vm : variables_map} (h : storeSources argv cfile = .ok vm) (name : String) (n : Nat)
    (hd : (⟨name, .unsigned_value n⟩ : option_description) ∈ configFileOptions)
    (old1 old2 : Nat) :
    notifyUnsigned vm name old1 = notifyUnsigned vm name old2 := by
  rcases merged_entry h hd with ⟨token, v, hv, hm⟩ | hm
  · obtain ⟨x, rfl⟩ := parseValue_unsigned hv
    simp only [notifyUnsigned, hm]
  · simp only [notifyUnsigned, hm, applyDefault, Option.map_some']

/-- The outcome of the constructor does not depend on what the members other than `m_filePath`
hold on entry: `notify` overwrites each of them, and `m_useFullPage` is assigned afterwards. -/
theorem afterNotify_onEntry {argv : List basic_option} {cfile : Option (List basic_option)}
    {vm : variables_map} (h : storeSources argv cfile = .ok vm) (self : RuntimeConfiguration)
    (hpath : self.m_filePath = "") :
    afterNotify vm (notify vm self) = afterNotify vm (notify vm RuntimeConfiguration.onEntry) := by
  have hn : ∀ fp, { notify vm self with m_useFullPage := fp } =
      { notify vm RuntimeConfiguration.onEntry with m_useFullPage := fp } := by
    intro fp
    simp only [notify, hpath, RuntimeConfiguration.onEntry,
      notifyUnsigned_written h "prerender-previous-pages" 3 (by decide)
        self.m_prerenderPreviousPages 0,
      notifyUnsigned_written h "prerender-next-pages" 10 (by decide)
        self.m_prerenderNextPages 0,
      notifyUnsigned_written h "bottom-pane-height" 20 (by decide)
        self.m_bottomPaneHeightPercent 0,
      notifyBool_written h "hyperlink-support" true (by decide) self.m_hyperlinkSupport false,
      notifyBool_written h "cache-to-memory" true (by decide) self.m_cacheToMemory false,
      notifyBool_written h "i3-workaround" false (by decide) self.m_i3workaround false,
      notifyBool_written h "use-second-screen" true (by decide) self.m_useSecondScreen false,
      notifyBool_written h "presenter-area" true (by decide) self.m_showPresenterArea false,
      notifyBool_written h "thumbnails" true (by decide) self.m_showThumbnails false,
      notifyBool_written h "wall-clock" true (by decide) self.m_showWallClock false,
      notifyBool_written h "presentation-clock" true (by decide)
        self.m_showPresentationClock false,
      notifyBool_written h "slide-clock" true (by decide) self.m_showSlideClock false]
  have hb : (notify vm self).m_bottomPaneHeightPercent =
      (notify vm RuntimeConfiguration.onEntry).m_bottomPaneHeightPercent := by
    have := congrArg RuntimeConfiguration.m_bottomPaneHeightPercent (hn false)
    exact this
  have key : ∀ s1 s2 : RuntimeConfiguration,
      s1.m_bottomPaneHeightPercent = s2.m_bottomPaneHeightPercent →
      ({ s1 with m_useFullPage := decide (0 < vm.count "full-page") } : RuntimeConfiguration) =
        { s2 with m_useFullPage := decide (0 < vm.count "full-page") } →
      afterNotify vm s1 = afterNotify vm s2 := by
    intro s1 s2 e1 e2
    unfold afterNotify
    rw [e2, e1]
  exact key _ _ hb (hn _)

/-! ## Dropping the occurrences of one option -/

/-- A round of the loop commutes with a change of the state at another name. -/
theorem storeOption_congr {desc : List option_description} {k : String}
    {f1 f2 : String → Bool} {o : basic_option}
    {m1 m2 ma : String → Option variable_value} {nf1 nf2 nfa : String → Bool}
    (hf : ∀ j, j ≠ k → f1 j = f2 j) (hm : ∀ j, j ≠ k → m1 j = m2 j)
    (hnf : ∀ j, j ≠ k → nf1 j = nf2 j) (hk : o.string_key ≠ k)
    (h : storeOption desc f1 o m1 nf1 = .ok (ma, nfa)) :
    ∃ mb nfb, storeOption desc f2 o m2 nf2 = .ok (mb, nfb) ∧
      (∀ j, j ≠ k → ma j = mb j) ∧ (∀ j, j ≠ k → nfa j = nfb j) ∧
      mb k = m2 k ∧ nfb k = nf2 k := by
  rcases storeOption_ok h with ⟨hskip, rfl, rfl⟩ | ⟨hne, hfin, hfirst, d, v, hd, hv, rfl, rfl⟩
  · refine ⟨m2, nf2, storeOption_skip ?_, hm, hnf, rfl, rfl⟩
    rcases hskip with hs | hs
    · exact Or.inl hs
    · exact Or.inr (by rw [← hf _ hk]; exact hs)
  · refine ⟨_, _, storeOption_store hne (by rw [← hf _ hk]; exact hfin) hd ?_ hv, ?_, ?_, ?_, ?_⟩
    · intro w
      rw [← hm _ hk]
      exact hfirst w
    · intro j hj
      unfold setEntry
      split
      · rfl
      · exact hm j hj
    · intro j hj
      unfold insertName
      split
      · rfl
      · exact hnf j hj
    · exact setEntry_other _ _ (Ne.symm hk)
    · exact insertName_other _ (Ne.symm hk)

/-- A successful loop stays successful when the occurrences of one option are dropped, and
gives the same state at every other name. -/
theorem storeOptions_drop {desc : List option_description} (k : String)
    {f1 f2 : String → Bool} (hf : ∀ j, j ≠ k → f1 j = f2 j) :
    ∀ (opts : List basic_option) (m1 m2 ma : String → Option variable_value)
      (nf1 nf2 nfa : String → Bool),
      (∀ j, j ≠ k → m1 j = m2 j) → (∀ j, j ≠ k → nf1 j = nf2 j) →
      storeOptions desc f1 opts m1 nf1 = .ok (ma, nfa) →
      ∃ mb nfb,
        storeOptions desc f2 (opts.filter (fun o => o.string_key != k)) m2 nf2 = .ok (mb, nfb) ∧
        (∀ j, j ≠ k → ma j = mb j) ∧ (∀ j, j ≠ k → nfa j = nfb j) ∧
        mb k = m2 k ∧ nfb k = nf2 k := by
  intro opts
  induction opts with
  | nil =>
    intro m1 m2 ma nf1 nf2 nfa hm hnf h
    simp only [storeOptions, Except.ok.injEq, Prod.mk.injEq] at h
    obtain ⟨rfl, rfl⟩ := h
    exact ⟨m2, nf2, rfl, hm, hnf, rfl, rfl⟩
  | cons o rest ih =>
    intro m1 m2 ma nf1 nf2 nfa hm hnf h
    obtain ⟨mc, nfc, hstep, hrest⟩ := storeOptions_cons_ok h
    by_cases hk : o.string_key = k
    · have hdrop : (o :: rest).filter (fun o => o.string_key != k) =
          rest.filter (fun o => o.string_key != k) := by
        rw [List.filter_cons_of_neg (by simp [hk])]
      rw [hdrop]
      apply ih mc m2 ma nfc nf2 nfa _ _ hrest
      · intro j hj
        rcases storeOption_ok hstep with ⟨_, rfl, rfl⟩ | ⟨_, _, _, d, v, _, _, rfl, rfl⟩
        · exact hm j hj
        · rw [setEntry_other _ _ (by rw [hk]; exact hj)]
          exact hm j hj
      · intro j hj
        rcases storeOption_ok hstep with ⟨_, rfl, rfl⟩ | ⟨_, _, _, d, v, _, _, rfl, rfl⟩
        · exact hnf j hj
        · rw [insertName_other _ (by rw [hk]; exact hj)]
          exact hnf j hj
    · have hkeep : (o :: rest).filter (fun o => o.string_key != k) =
          o :: rest.filter (fun o => o.string_key != k) := by
        rw [List.filter_cons_of_pos (by simp [hk])]
      rw [hkeep]
      obtain ⟨md, nfd, hstep2, hmd, hnfd, hmk, hnfk⟩ := storeOption_congr hf hm hnf hk hstep
      obtain ⟨mb, nfb, hloop, hmb, hnfb, hmbk, hnfbk⟩ :=
        ih mc md ma nfc nfd nfa hmd hnfd hrest
      refine ⟨mb, nfb, ?_, hmb, hnfb, by rw [hmbk, hmk], by rw [hnfbk, hnfk]⟩
      unfold storeOptions
      rw [hstep2]
      exact hloop

/-- The result of `store` from the result of its first loop. -/
theorem store_of_loop {desc : List option_description} {opts : List basic_option}
    {xm : variables_map} {m : String → Option variable_value} {nf : String → Bool}
    (h : storeOptions desc xm.m_final opts xm.m (fun _ => false) = .ok (m, nf)) :
    store desc opts xm = .ok ⟨storeDefaults desc m, fun k => xm.m_final k || nf k⟩ := by
  unfold store
  rw [h]

/-- A successful `store` stays successful when the occurrences of one option are dropped. -/
theorem store_drop {desc : List option_description} (k : String) {opts : List basic_option}
    {xm1 xm2 xma : variables_map}
    (hm : ∀ j, j ≠ k → xm1.m j = xm2.m j) (hf : ∀ j, j ≠ k → xm1.m_final j = xm2.m_final j)
    (h : store desc opts xm1 = .ok xma) :
    ∃ xmb, store desc (opts.filter (fun o => o.string_key != k)) xm2 = .ok xmb ∧
      (∀ j, j ≠ k → xma.m j = xmb.m j) ∧ (∀ j, j ≠ k → xma.m_final j = xmb.m_final j) ∧
      xmb.m k = withDefault desc (xm2.m k) k ∧ xmb.m_final k = xm2.m_final k := by
  obtain ⟨ma, nfa, hloop, hma, hfa⟩ := store_ok h
  obtain ⟨mb, nfb, hloop2, hmb, hnfb, hmbk, hnfbk⟩ :=
    storeOptions_drop k hf opts xm1.m xm2.m ma (fun _ => false) (fun _ => false) nfa hm
      (fun _ _ => rfl) hloop
  refine ⟨_, store_of_loop hloop2, ?_, ?_, ?_, ?_⟩
  · intro j hj
    show xma.m j = storeDefaults desc mb j
    rw [hma, storeDefaults_apply, storeDefaults_apply, hmb j hj]
  · intro j hj
    show xma.m_final j = (xm2.m_final j || nfb j)
    rw [hfa]
    show (xm1.m_final j || nfa j) = (xm2.m_final j || nfb j)
    rw [hf j hj, hnfb j hj]
  · show storeDefaults desc mb k = _
    rw [storeDefaults_apply, hmbk]
  · show (xm2.m_final k || nfb k) = xm2.m_final k
    rw [hnfbk]
    simp

/-- A successful run of both sources stays successful when the document argument is dropped from
the command line; the merged values of all other options are the same, and `pdf-file` has no
entry. -/
theorem storeSources_drop_pdfFile {argv : List basic_option}
    {cfile : Option (List basic_option)} {vm : variables_map}
    (h : storeSources argv cfile = .ok vm) :
    ∃ vm2, storeSources (argv.filter (fun o => o.string_key != "pdf-file")) cfile = .ok vm2 ∧
      (∀ j, j ≠ "pdf-file" → vm.m j = vm2.m j) ∧ vm2.m "pdf-file" = none := by
  obtain ⟨vm1, hdecl, hstore, hrest⟩ := storeSources_ok h
  obtain ⟨vmb, hstoreb, hmb, hfb, hmbk, hfbk⟩ :=
    store_drop "pdf-file" (fun _ _ => rfl) (fun _ _ => rfl) hstore
  have hparse : runParser commandLineOptions
      (argv.filter (fun o => o.string_key != "pdf-file")) =
        .ok (argv.filter (fun o => o.string_key != "pdf-file")) :=
    runParser_of_declared _ (fun o ho => hdecl o (List.mem_of_mem_filter ho))
  have hmbk2 : vmb.m "pdf-file" = none := by
    rw [hmbk]
    decide
  have hfbk2 : vmb.m_final "pdf-file" = false := by
    rw [hfbk]
    rfl
  rcases hrest with ⟨rfl, rfl⟩ | ⟨entries, rfl, hdeclf, hstore2⟩
  · refine ⟨vmb, ?_, hmb, hmbk2⟩
    unfold storeSources
    rw [hparse]
    simp only [hstoreb]
  · have hnone : ∀ o ∈ entries, o.string_key ≠ "pdf-file" := by
      intro o ho hk
      obtain ⟨d, hd⟩ := hdeclf o ho
      have hfind : findDescription configFileOptions "pdf-file" = none := by decide
      rw [hk, hfind] at hd
      exact absurd hd (by simp)
    obtain ⟨vmc, hstorec, hmc, _, hmck, _⟩ := store_drop "pdf-file" hmb hfb hstore2
    have hsame : entries.filter (fun o => o.string_key != "pdf-file") = entries := by
      rw [List.filter_eq_self]
      intro o ho
      simpa using hnone o ho
    rw [hsame] at hstorec
    refine ⟨vmc, ?_, hmc, ?_⟩
    · unfold storeSources
      rw [hparse]
      simp only [hstoreb, runParser_of_declared _ hdeclf, hstorec]
    · rw [hmck, hmbk2]
      decide

/-- The implied options commute with the setter of the document path. -/
theorem impliedOptions_setFilePath (s : RuntimeConfiguration) (p : String) :
    impliedOptions (s.setFilePath p) = (impliedOptions s).setFilePath p := by
  cases s with
  | mk fp pa wc th pc sc path hl cm us i3 pp np bph =>
    cases us <;> cases pa <;> simp [impliedOptions, RuntimeConfiguration.setFilePath]

/-- Dropping the document argument from a command line that constructs an object gives a command
line that constructs the same object with the empty document path. -/
theorem construct_drop_pdfFile {argv : List basic_option} {cfile : Option (List basic_option)}
    {c : RuntimeConfiguration} (h : construct argv cfile = .constructed c) :
    construct (argv.filter (fun o => o.string_key != "pdf-file")) cfile =
      .constructed (c.setFilePath "") := by
  obtain ⟨vm, hstore, hversion, hhelp, hlo, hhi, rfl⟩ := construct_constructed h
  obtain ⟨vm2, hstore2, hagree, hpdf⟩ := storeSources_drop_pdfFile hstore
  have e1 := hagree "prerender-previous-pages" (by decide)
  have e2 := hagree "prerender-next-pages" (by decide)
  have e3 := hagree "hyperlink-support" (by decide)
  have e4 := hagree "cache-to-memory" (by decide)
  have e5 := hagree "i3-workaround" (by decide)
  have e6 := hagree "use-second-screen" (by decide)
  have e7 := hagree "presenter-area" (by decide)
  have e8 := hagree "thumbnails" (by decide)
  have e9 := hagree "wall-clock" (by decide)
  have e10 := hagree "presentation-clock" (by decide)
  have e11 := hagree "slide-clock" (by decide)
  have e12 := hagree "bottom-pane-height" (by decide)
  have e13 := hagree "version" (by decide)
  have e14 := hagree "help" (by decide)
  have e15 := hagree "full-page" (by decide)
  have hnotify : notify vm2 RuntimeConfiguration.onEntry =
      (notify vm RuntimeConfiguration.onEntry).setFilePath "" := by
    simp only [notify, notifyBool, notifyUnsigned, notifyString, e1, e2, e3, e4, e5, e6, e7, e8,
      e9, e10, e11, e12, hpdf, RuntimeConfiguration.setFilePath, RuntimeConfiguration.onEntry]
  have hcount : ∀ j, j ≠ "pdf-file" → vm2.count j = vm.count j := by
    intro j hj
    unfold variables_map.count
    rw [hagree j hj]
  rw [construct_of_merged hstore2 (by rw [hcount _ (by decide)]; exact hversion)
    (by rw [hcount _ (by decide)]; exact hhelp) (by rw [hnotify]; exact hlo)
    (by rw [hnotify]; exact hhi)]
  rw [hnotify, hcount _ (by decide), ← impliedOptions_setFilePath]
  rfl

/-! ## Help, version and the document argument -/

/-- An option given on the command line is counted in the merged map. -/
theorem count_of_commandLine {argv : List basic_option} {cfile : Option (List basic_option)}
    {vm : variables_map} (h : storeSources argv cfile = .ok vm)
    {o : basic_option} (ho : o ∈ argv) : vm.count o.string_key = 1 := by
  obtain ⟨d, v, _, _, hm⟩ := merged_of_commandLine h ho
  unfold variables_map.count
  rw [hm]
  rfl

/-- After a successful run of both sources the constructor ends in `afterNotify`. -/
theorem construct_of_stored {argv : List basic_option} {cfile : Option (List basic_option)}
    {vm : variables_map} (h : storeSources argv cfile = .ok vm) :
    construct argv cfile = afterNotify vm (notify vm RuntimeConfiguration.onEntry) := by
  unfold construct
  rw [h]

/-- A failure of parsing or storing either source is the outcome of the constructor. -/
theorem construct_of_error {argv : List basic_option} {cfile : Option (List basic_option)}
    {e : Exception} (h : storeSources argv cfile = .error e) :
    construct argv cfile = .thrown e := by
  unfold construct
  rw [h]

/-- The document argument of the command line is the stored path of the constructed object. -/
theorem construct_filePath_of_positional {argv : List basic_option}
    {cfile : Option (List basic_option)} {c : RuntimeConfiguration} {p : String}
    (hc : construct argv cfile = .constructed c)
    (hp : (⟨"pdf-file", p⟩ : basic_option) ∈ argv) : c.m_filePath = p := by
  obtain ⟨vm, hstore, _, _, _, _, rfl⟩ := construct_constructed hc
  obtain ⟨d, v, hd, hv, hm⟩ := merged_of_commandLine hstore hp
  have hfind : findDescription commandLineOptions "pdf-file" =
      some ⟨"pdf-file", .string_value⟩ := by decide
  rw [show (basic_option.mk "pdf-file" p).string_key = "pdf-file" from rfl] at hd hm
  rw [hfind] at hd
  simp only [Option.some.injEq] at hd
  subst hd
  simp only [parseValue, Except.ok.injEq] at hv
  subst hv
  rw [(impliedOptions_frame _).2.2.2]
  simp only [notify, notifyString, hm]

/-- The query and the getter of the document path, in terms of the stored string. -/
theorem filePath_cases (s : RuntimeConfiguration) :
    (s.m_filePath = "" ∧ s.filePathDefined = false ∧ s.filePath = .error .noFileNameException) ∨
    (s.m_filePath ≠ "" ∧ s.filePathDefined = true ∧ s.filePath = .ok s.m_filePath) := by
  unfold RuntimeConfiguration.filePathDefined RuntimeConfiguration.filePath
  cases he : s.m_filePath.isEmpty with
  | true =>
    left
    exact ⟨(String.isEmpty_iff _).mp he, rfl, rfl⟩
  | false =>
    right
    refine ⟨?_, rfl, rfl⟩
    intro hempty
    rw [(String.isEmpty_iff _).mpr hempty] at he
    exact absurd he (by simp)

/-! ## The claims -/

/-- C1: in a run without help or version request whose merged bottom-pane-height value is `h`,
the constructor yields an object, and its `bottomPaneHeight()` is `h`, if and only if
`1 <= h <= 99`; for every other `h` it throws the runtime error "Invalid percent height
specified" and yields no object. -/
theorem bottomPaneHeight_in_range_iff (argv : List basic_option)
    (cfile : Option (List basic_option)) (vm : variables_map) (h : Nat) (dflt : Bool)
    (hstore : storeSources argv cfile = .ok vm)
    (hversion : vm.count "version" = 0) (hhelp : vm.count "help" = 0)
    (hmerged : vm.m "bottom-pane-height" = some ⟨.unsigned h, dflt⟩) :
    ((∃ c, construct argv cfile = .constructed c ∧ c.bottomPaneHeight = h) ↔
      (1 ≤ h ∧ h ≤ 99)) ∧
    (¬ (1 ≤ h ∧ h ≤ 99) →
      construct argv cfile = .thrown (.runtime_error "Invalid percent height specified") ∧
      ∀ c, construct argv cfile ≠ .constructed c) := by
  have hh : (notify vm RuntimeConfiguration.onEntry).m_bottomPaneHeightPercent = h := by
    simp only [notify, notifyUnsigned, hmerged]
  have hthrow : ¬ (1 ≤ h ∧ h ≤ 99) →
      construct argv cfile = .thrown (.runtime_error "Invalid percent height specified") := by
    intro hout
    unfold construct
    rw [hstore]
    show afterNotify vm _ = _
    unfold afterNotify
    rw [if_neg (by omega), if_pos (by omega)]
  refine ⟨⟨?_, ?_⟩, ?_⟩
  · rintro ⟨c, hc, _⟩
    by_contra hout
    rw [hthrow hout] at hc
    exact absurd hc (by simp)
  · intro hin
    refine ⟨_, construct_of_merged hstore hversion hhelp (by omega) (by omega), ?_⟩
    show (impliedOptions _).m_bottomPaneHeightPercent = h
    rw [(impliedOptions_frame _).1]
    exact hh
  · intro hout
    refine ⟨hthrow hout, ?_⟩
    intro c hc
    rw [hthrow hout] at hc
    exact absurd hc (by simp)

/-- Witness of C1: `--bottom-pane-height=50` on the command line, no configuration file. -/
theorem bottomPaneHeight_in_range_iff_witness :
    ((∃ c, construct [⟨"bottom-pane-height", "50"⟩] none = .constructed c ∧
        c.bottomPaneHeight = 50) ↔ (1 ≤ 50 ∧ 50 ≤ 99)) ∧
    (¬ (1 ≤ 50 ∧ 50 ≤ 99) →
      construct [⟨"bottom-pane-height", "50"⟩] none =
        .thrown (.runtime_error "Invalid percent height specified") ∧
      ∀ c, construct [⟨"bottom-pane-height", "50"⟩] none ≠ .constructed c) :=
  bottomPaneHeight_in_range_iff [⟨"bottom-pane-height", "50"⟩] none
    ((storeSources [⟨"bottom-pane-height", "50"⟩] none).toOption.getD variables_map.empty)
    50 false (by rfl) (by decide) (by decide) (by rfl)

/-- C2: for every option that both sources may give, a value on the command line is the merged
value whatever the configuration file says; without one on the command line, a value in the
configuration file is the merged value; and with neither, the merged value is the declared
default. -/
theorem commandLine_overrides_configFile (argv : List basic_option)
    (cfile : Option (List basic_option)) (vm : variables_map) (d : option_description)
    (hd : d ∈ configFileOptions) (hstore : storeSources argv cfile = .ok vm) :
    (∀ c, (⟨d.long_name, c⟩ : basic_option) ∈ argv →
      ∃ v, parseValue d.semantic c = .ok v ∧ vm.m d.long_name = some ⟨v, false⟩) ∧
    ((∀ x ∈ argv, x.string_key ≠ d.long_name) →
      ∀ entries f, cfile = some entries → (⟨d.long_name, f⟩ : basic_option) ∈ entries →
        ∃ v, parseValue d.semantic f = .ok v ∧ vm.m d.long_name = some ⟨v, false⟩) ∧
    ((∀ x ∈ argv, x.string_key ≠ d.long_name) →
      (∀ entries, cfile = some entries → ∀ x ∈ entries, x.string_key ≠ d.long_name) →
        vm.m d.long_name = (applyDefault d.semantic).map (fun v => ⟨v, true⟩)) := by
  have hfind : findDescription configFileOptions d.long_name = some d ∧
      defaultOf commandLineOptions d.long_name =
        (applyDefault d.semantic).map (fun v => ⟨v, true⟩) := by
    simp only [configFileOptions, global, secondscreen, List.cons_append, List.nil_append,
      List.mem_cons, List.mem_singleton, List.not_mem_nil, or_false] at hd
    rcases hd with rfl | rfl | rfl | rfl | rfl | rfl | rfl | rfl | rfl | rfl | rfl | rfl | rfl <;>
      exact ⟨by decide, by decide⟩
  refine ⟨?_, ?_, ?_⟩
  · intro c hc
    obtain ⟨d1, v, hd1, hv, hm⟩ := merged_of_commandLine hstore hc
    rw [configFile_declared hfind.1] at hd1
    simp only [Option.some.injEq] at hd1
    subst hd1
    exact ⟨v, hv, hm⟩
  · intro hargv entries f hsome hf
    subst hsome
    obtain ⟨d1, v, hd1, hv, hm⟩ := merged_of_configFile hstore hf hargv
    rw [hfind.1] at hd1
    simp only [Option.some.injEq] at hd1
    subst hd1
    exact ⟨v, hv, hm⟩
  · intro hargv hentries
    rw [merged_of_default hstore hargv hentries]
    exact hfind.2

/-- Witness of C2: the configuration file says `hyperlink-support=false` and the command line
says `--hyperlink-support=true`; the merged value is true, and without the command-line option
the constructed object has `hyperlinkSupport()` false. -/
theorem commandLine_overrides_configFile_witness :
    (∃ v, parseValue (.bool_value true) "true" = .ok v ∧
      ((storeSources [⟨"hyperlink-support", "true"⟩]
          (some [⟨"hyperlink-support", "false"⟩])).toOption.getD variables_map.empty).m
        "hyperlink-support" = some ⟨v, false⟩) ∧
    (∃ c, construct [] (some [⟨"hyperlink-support", "false"⟩]) = .constructed c ∧
      c.hyperlinkSupport = false) ∧
    (∃ c, construct [⟨"hyperlink-support", "true"⟩] (some [⟨"hyperlink-support", "false"⟩]) =
        .constructed c ∧ c.hyperlinkSupport = true) :=
  ⟨(commandLine_overrides_configFile [⟨"hyperlink-support", "true"⟩]
      (some [⟨"hyperlink-support", "false"⟩])
      ((storeSources [⟨"hyperlink-support", "true"⟩]
          (some [⟨"hyperlink-support", "false"⟩])).toOption.getD variables_map.empty)
      ⟨"hyperlink-support", .bool_value true⟩ (by decide) (by rfl)).1 "true" (by decide),
    ⟨_, rfl, by decide⟩, ⟨_, rfl, by decide⟩⟩

/-- C3: when the merged use-second-screen value is false, the constructed object has
`useSecondScreen()` false and `showPresenterArea()` false, whatever was given for
presenter-area. -/
theorem useSecondScreen_false_hides_presenterArea (argv : List basic_option)
    (cfile : Option (List basic_option)) (vm : variables_map) (c : RuntimeConfiguration)
    (dflt : Bool) (hstore : storeSources argv cfile = .ok vm)
    (hmerged : vm.m "use-second-screen" = some ⟨.bool false, dflt⟩)
    (hc : construct argv cfile = .constructed c) :
    c.useSecondScreen = false ∧ c.showPresenterArea = false := by
  obtain ⟨vm1, hvm1, _, _, _, _, rfl⟩ := construct_constructed hc
  rw [hstore] at hvm1
  simp only [Except.ok.injEq] at hvm1
  subst hvm1
  have hs : (notify vm RuntimeConfiguration.onEntry).m_useSecondScreen = false := by
    simp only [notify, notifyBool, hmerged]
  refine ⟨?_, ?_⟩
  · show (impliedOptions _).m_useSecondScreen = false
    rw [(impliedOptions_frame _).2.1]
    exact hs
  · exact (impliedOptions_hidden _).1 hs

/-- Witness of C3: the command line `--bottom-pane-height=50 --use-second-screen=false
--presenter-area=true slides.pdf` without a configuration file. -/
theorem useSecondScreen_false_hides_presenterArea_witness :
    ∃ c, construct [⟨"bottom-pane-height", "50"⟩, ⟨"use-second-screen", "false"⟩,
        ⟨"presenter-area", "true"⟩, ⟨"pdf-file", "slides.pdf"⟩] none = .constructed c ∧
      c.useSecondScreen = false ∧ c.showPresenterArea = false ∧ c.bottomPaneHeight = 50 ∧
      c.showPresentationClock = false ∧ c.showWallClock = false ∧ c.showSlideClock = false ∧
      c.showThumbnails = false ∧ c.filePath = .ok "slides.pdf" :=
  have hc : construct [⟨"bottom-pane-height", "50"⟩, ⟨"use-second-screen", "false"⟩,
      ⟨"presenter-area", "true"⟩, ⟨"pdf-file", "slides.pdf"⟩] none =
      .constructed
        { m_useFullPage := false, m_showPresenterArea := false, m_showWallClock := false,
          m_showThumbnails := false, m_showPresentationClock := false,
          m_showSlideClock := false, m_filePath := "slides.pdf", m_hyperlinkSupport := true,
          m_cacheToMemory := true, m_useSecondScreen := false, m_i3workaround := false,
          m_prerenderPreviousPages := 3, m_prerenderNextPages := 10,
          m_bottomPaneHeightPercent := 50 } := by decide
  have hw := useSecondScreen_false_hides_presenterArea
    [⟨"bottom-pane-height", "50"⟩, ⟨"use-second-screen", "false"⟩,
      ⟨"presenter-area", "true"⟩, ⟨"pdf-file", "slides.pdf"⟩] none
    ((storeSources [⟨"bottom-pane-height", "50"⟩, ⟨"use-second-screen", "false"⟩,
      ⟨"presenter-area", "true"⟩, ⟨"pdf-file", "slides.pdf"⟩] none).toOption.getD
        variables_map.empty)
    _ false (by rfl) (by rfl) hc
  ⟨_, hc, hw.1, hw.2, rfl, rfl, rfl, rfl, rfl, rfl⟩

/-- C4: in every constructed object with `showPresenterArea()` false, the presentation clock,
the wall clock, the slide clock and the thumbnails are all off, whatever was given for them. -/
theorem presenterArea_false_hides_clocks_and_thumbnails (argv : List basic_option)
    (cfile : Option (List basic_option)) (c : RuntimeConfiguration)
    (hc : construct argv cfile = .constructed c) (harea : c.showPresenterArea = false) :
    c.showPresentationClock = false ∧ c.showWallClock = false ∧
    c.showSlideClock = false ∧ c.showThumbnails = false := by
  obtain ⟨vm1, _, _, _, _, _, rfl⟩ := construct_constructed hc
  exact (impliedOptions_hidden _).2 harea

/-- Witness of C4: the configuration file hides the presenter area while the command line asks
for the thumbnails and the wall clock. -/
theorem presenterArea_false_hides_clocks_and_thumbnails_witness :
    ∃ c, construct [⟨"thumbnails", "true"⟩, ⟨"wall-clock", "1"⟩]
        (some [⟨"presenter-area", "false"⟩, ⟨"slide-clock", "on"⟩]) = .constructed c ∧
      c.showPresenterArea = false ∧
      c.showPresentationClock = false ∧ c.showWallClock = false ∧
      c.showSlideClock = false ∧ c.showThumbnails = false :=
  have hc : construct [⟨"thumbnails", "true"⟩, ⟨"wall-clock", "1"⟩]
      (some [⟨"presenter-area", "false"⟩, ⟨"slide-clock", "on"⟩]) =
      .constructed
        { m_useFullPage := false, m_showPresenterArea := false, m_showWallClock := false,
          m_showThumbnails := false, m_showPresentationClock := false,
          m_showSlideClock := false, m_filePath := "", m_hyperlinkSupport := true,
          m_cacheToMemory := true, m_useSecondScreen := true, m_i3workaround := false,
          m_prerenderPreviousPages := 3, m_prerenderNextPages := 10,
          m_bottomPaneHeightPercent := 20 } := by decide
  ⟨_, hc, rfl, presenterArea_false_hides_clocks_and_thumbnails _ _ _ hc rfl⟩

/-- C5: the implied options are idempotent: applying them twice gives the same object as
applying them once, for every state of the members. -/
theorem impliedOptions_idempotent (s : RuntimeConfiguration) :
    impliedOptions (impliedOptions s) = impliedOptions s := by
  cases s with
  | mk fp pa wc th pc sc path hl cm us i3 pp np bph =>
    cases us <;> cases pa <;> simp [impliedOptions]

/-- C6: a command line that constructs an object still constructs one when its document
argument is taken away, and then `filePathDefined()` is false and `filePath()` throws the
no-file-name exception; every object constructed from a command line without document argument
is in that state; and with a non-empty document argument `p`, `filePath()` returns `p`. -/
theorem filePath_undefined_without_positional (argv : List basic_option)
    (cfile : Option (List basic_option)) (c : RuntimeConfiguration)
    (hc : construct argv cfile = .constructed c) :
    (∃ c0, construct (argv.filter (fun o => o.string_key != "pdf-file")) cfile =
        .constructed c0 ∧
      c0.filePathDefined = false ∧ c0.filePath = .error .noFileNameException) ∧
    ((∀ o ∈ argv, o.string_key ≠ "pdf-file") →
      c.filePathDefined = false ∧ c.filePath = .error .noFileNameException) ∧
    (∀ p, (⟨"pdf-file", p⟩ : basic_option) ∈ argv → p ≠ "" →
      c.filePathDefined = true ∧ c.filePath = .ok p) := by
  have hdrop := construct_drop_pdfFile hc
  refine ⟨⟨_, hdrop, rfl, rfl⟩, ?_, ?_⟩
  · intro hno
    have hsame : argv.filter (fun o => o.string_key != "pdf-file") = argv := by
      rw [List.filter_eq_self]
      intro o ho
      simpa using hno o ho
    rw [hsame, hc] at hdrop
    simp only [Outcome.constructed.injEq] at hdrop
    rw [hdrop]
    exact ⟨rfl, rfl⟩
  · intro p hp hne
    obtain ⟨vm, hstore, _, _, _, _, rfl⟩ := construct_constructed hc
    obtain ⟨d, v, hd, hv, hm⟩ := merged_of_commandLine hstore hp
    have hfind : findDescription commandLineOptions "pdf-file" =
        some ⟨"pdf-file", .string_value⟩ := by decide
    rw [show (basic_option.mk "pdf-file" p).string_key = "pdf-file" from rfl] at hd hm
    rw [hfind] at hd
    simp only [Option.some.injEq] at hd
    subst hd
    simp only [parseValue, Except.ok.injEq] at hv
    subst hv
    have hpath : (impliedOptions { notify vm RuntimeConfiguration.onEntry with
        m_useFullPage := decide (0 < vm.count "full-page") }).m_filePath = p := by
      rw [(impliedOptions_frame _).2.2.2]
      simp only [notify, notifyString, hm]
    have hempty : p.isEmpty = false := by
      cases he : p.isEmpty with
      | false => rfl
      | true => exact absurd ((String.isEmpty_iff p).mp he) hne
    unfold RuntimeConfiguration.filePathDefined RuntimeConfiguration.filePath
    rw [hpath, hempty]
    exact ⟨rfl, rfl⟩

/-- Witness of C6: the command line `--bottom-pane-height=50 slides.pdf`. -/
theorem filePath_undefined_without_positional_witness :
    (∃ c0, construct [⟨"bottom-pane-height", "50"⟩] none = .constructed c0 ∧
      c0.filePathDefined = false ∧ c0.filePath = .error .noFileNameException) ∧
    (∃ c, construct [⟨"bottom-pane-height", "50"⟩, ⟨"pdf-file", "slides.pdf"⟩] none =
        .constructed c ∧ c.filePathDefined = true ∧ c.filePath = .ok "slides.pdf") :=
  have hc : construct [⟨"bottom-pane-height", "50"⟩, ⟨"pdf-file", "slides.pdf"⟩] none =
      .constructed
        { m_useFullPage := false, m_showPresenterArea := true, m_showWallClock := true,
          m_showThumbnails := true, m_showPresentationClock := true,
          m_showSlideClock := true, m_filePath := "slides.pdf", m_hyperlinkSupport := true,
          m_cacheToMemory := true, m_useSecondScreen := true, m_i3workaround := false,
          m_prerenderPreviousPages := 3, m_prerenderNextPages := 10,
          m_bottomPaneHeightPercent := 50 } := by decide
  ⟨(filePath_undefined_without_positional _ _ _ hc).1,
    ⟨_, hc, (filePath_undefined_without_positional _ _ _ hc).2.2 "slides.pdf"
      (by decide) (by decide)⟩⟩

/-- C7, as the code has it: for every configuration object and every non-empty path `p`, after
the setter `filePath(p)` the document path is defined and `filePath()` returns `p`; an earlier
injection is overwritten, so after `p1` then `p` the query returns `p`. -/
theorem setFilePath_then_filePath (c : RuntimeConfiguration) (p : String) (hp : p ≠ "") :
    (c.setFilePath p).filePathDefined = true ∧ (c.setFilePath p).filePath = .ok p ∧
    ∀ p1, ((c.setFilePath p1).setFilePath p).filePathDefined = true ∧
      ((c.setFilePath p1).setFilePath p).filePath = .ok p := by
  have hempty : p.isEmpty = false := by
    cases he : p.isEmpty with
    | false => rfl
    | true => exact absurd ((String.isEmpty_iff p).mp he) hp
  refine ⟨?_, ?_, fun p1 => ⟨?_, ?_⟩⟩ <;>
    simp [RuntimeConfiguration.filePathDefined, RuntimeConfiguration.filePath,
      RuntimeConfiguration.setFilePath, hempty]

/-- Witness of C7: the injection of "talk.pdf" into the object constructed from the empty
command line. -/
theorem setFilePath_then_filePath_witness :
    "talk.pdf" ≠ "" ∧
    ∀ c, construct [] none = .constructed c →
      (c.setFilePath "talk.pdf").filePathDefined = true ∧
      (c.setFilePath "talk.pdf").filePath = .ok "talk.pdf" :=
  ⟨by decide, fun c _ =>
    ⟨(setFilePath_then_filePath c "talk.pdf" (by decide)).1,
     (setFilePath_then_filePath c "talk.pdf" (by decide)).2.1⟩⟩

/-- Counterexample to C7 as stated: after the injection of the empty string into the object
constructed from the command line `slides.pdf`, the document path is not defined and `filePath()`
throws instead of returning the injected string. -/
theorem setFilePath_empty_undefined :
    ∃ c, construct [⟨"pdf-file", "slides.pdf"⟩] none = .constructed c ∧
      (c.setFilePath "").filePathDefined = false ∧
      (c.setFilePath "").filePath = .error .noFileNameException ∧
      (c.setFilePath "").filePath ≠ .ok "" :=
  ⟨_, rfl, rfl, rfl, fun h => Except.noConfusion h⟩

/-- C8: with no option on the command line (with or without a document argument) and no
configuration file, an object is constructed in which every option has its declared default. -/
theorem defaults_without_sources :
    (∃ c, construct [] none = .constructed c ∧
      c.prerenderPreviousPages = 3 ∧ c.prerenderNextPages = 10 ∧ c.hyperlinkSupport = true ∧
      c.cachePDFToMemory = true ∧ c.i3workaround = false ∧ c.useSecondScreen = true ∧
      c.showPresenterArea = true ∧ c.showThumbnails = true ∧ c.showWallClock = true ∧
      c.showPresentationClock = true ∧ c.showSlideClock = true ∧ c.bottomPaneHeight = 20 ∧
      c.useFullPage = false ∧ c.filePathDefined = false) ∧
    (∀ p, ∃ c, construct [⟨"pdf-file", p⟩] none = .constructed c ∧
      c.prerenderPreviousPages = 3 ∧ c.prerenderNextPages = 10 ∧ c.hyperlinkSupport = true ∧
      c.cachePDFToMemory = true ∧ c.i3workaround = false ∧ c.useSecondScreen = true ∧
      c.showPresenterArea = true ∧ c.showThumbnails = true ∧ c.showWallClock = true ∧
      c.showPresentationClock = true ∧ c.showSlideClock = true ∧ c.bottomPaneHeight = 20 ∧
      c.useFullPage = false ∧ c.m_filePath = p) :=
  ⟨⟨_, rfl, rfl, rfl, rfl, rfl, rfl, rfl, rfl, rfl, rfl, rfl, rfl, rfl, rfl, rfl⟩,
   fun _ => ⟨_, rfl, rfl, rfl, rfl, rfl, rfl, rfl, rfl, rfl, rfl, rfl, rfl, rfl, rfl, rfl⟩⟩

/-- C9, as the code has it: `full-page` is declared in a group that the configuration file
accepts too, so in every constructed object `useFullPage()` is true if and only if `full-page`
occurs on the command line or as a key of the configuration file; its value token plays no
part. -/
theorem useFullPage_iff_given (argv : List basic_option) (cfile : Option (List basic_option))
    (c : RuntimeConfiguration) (hc : construct argv cfile = .constructed c) :
    c.useFullPage = true ↔
      ((∃ o ∈ argv, o.string_key = "full-page") ∨
        ∃ entries, cfile = some entries ∧ ∃ o ∈ entries, o.string_key = "full-page") := by
  obtain ⟨vm, hstore, _, _, _, _, rfl⟩ := construct_constructed hc
  have hfp : (impliedOptions { notify vm RuntimeConfiguration.onEntry with
      m_useFullPage := decide (0 < vm.count "full-page") }).useFullPage =
        (vm.m "full-page").isSome := by
    show (impliedOptions _).m_useFullPage = _
    rw [(impliedOptions_frame _).2.2.1]
    show decide (0 < vm.count "full-page") = _
    unfold variables_map.count
    cases (vm.m "full-page").isSome <;> simp
  rw [hfp]
  constructor
  · intro hsome
    by_contra hnot
    have hnone : vm.m "full-page" = defaultOf commandLineOptions "full-page" :=
      merged_of_default hstore
        (fun x hx hk => hnot (Or.inl ⟨x, hx, hk⟩))
        (fun entries he x hx hk => hnot (Or.inr ⟨entries, he, x, hx, hk⟩))
    have hdef : defaultOf commandLineOptions "full-page" = none := by decide
    rw [hnone, hdef] at hsome
    exact absurd hsome (by simp)
  · intro hgiven
    by_cases hargv : ∃ o ∈ argv, o.string_key = "full-page"
    · obtain ⟨o, ho, hk⟩ := hargv
      obtain ⟨d, v, _, _, hm⟩ := merged_of_commandLine hstore ho
      rw [hk] at hm
      rw [hm]
      rfl
    · rcases hgiven with hgiven | ⟨entries, rfl, o, ho, hk⟩
      · exact absurd hgiven hargv
      · obtain ⟨d, v, _, _, hm⟩ := merged_of_configFile hstore ho
          (fun x hx hxk => hargv ⟨x, hx, by rw [hxk, hk]⟩)
        rw [hk] at hm
        rw [hm]
        rfl

/-- Witness of C9: `--full-page` on the command line. -/
theorem useFullPage_iff_given_witness :
    ∃ c, construct [⟨"full-page", ""⟩] none = .constructed c ∧
      (c.useFullPage = true ↔
        ((∃ o ∈ [(⟨"full-page", ""⟩ : basic_option)], o.string_key = "full-page") ∨
          ∃ entries, (none : Option (List basic_option)) = some entries ∧
            ∃ o ∈ entries, o.string_key = "full-page")) :=
  ⟨_, rfl, useFullPage_iff_given [⟨"full-page", ""⟩] none _ rfl⟩

/-- Counterexample to C9 as stated: with the empty command line and a configuration file that
holds `full-page=false`, the constructed object has `useFullPage()` true although the flag does
not occur on the command line. -/
theorem useFullPage_from_configFile :
    ∃ c, construct [] (some [⟨"full-page", "false"⟩]) = .constructed c ∧
      c.useFullPage = true ∧
      ¬ ∃ o ∈ ([] : List basic_option), o.string_key = "full-page" :=
  ⟨_, rfl, by decide, by simp⟩

/-- C10, as the code has it: the configuration file is parsed without allowing unregistered
options, so an entry whose key is not a declared configuration-file option makes the constructor
throw and no object is constructed; when the command line alone parses and stores, the exception
is `unknown_option` for such a key. -/
theorem unknown_configFile_key_rejected (argv entries : List basic_option)
    (hunknown : ∃ o ∈ entries, findDescription configFileOptions o.string_key = none) :
    (∃ e, construct argv (some entries) = .thrown e) ∧
    (∀ vm, storeSources argv none = .ok vm →
      ∃ k, findDescription configFileOptions k = none ∧
        construct argv (some entries) = .thrown (.unknown_option k)) := by
  obtain ⟨k, hk, hrun⟩ := runParser_unknown entries hunknown
  have hboth : ∀ vm, storeSources argv none = .ok vm →
      construct argv (some entries) = .thrown (.unknown_option k) := by
    intro vm hvm
    obtain ⟨vm1, hdecl, hstore, _⟩ := storeSources_ok hvm
    unfold construct storeSources
    rw [runParser_of_declared _ hdecl]
    simp only [hstore, hrun]
  refine ⟨?_, fun vm hvm => ⟨k, hk, hboth vm hvm⟩⟩
  cases hcmd : storeSources argv none with
  | ok vm => exact ⟨_, hboth vm hcmd⟩
  | error e =>
    refine ⟨e, ?_⟩
    unfold construct storeSources
    unfold storeSources at hcmd
    split at hcmd
    · rename_i e1 he1
      simp only [Except.error.injEq] at hcmd
      subst hcmd
      simp only [he1]
    · rename_i parsed hparsed
      split at hcmd
      · rename_i e1 he1
        simp only [Except.error.injEq] at hcmd
        subst hcmd
        simp only [hparsed, he1]
      · exact absurd hcmd (by simp)

/-- Witness of C10: the entry `no-such-option=1` after a valid entry. -/
theorem unknown_configFile_key_rejected_witness :
    (∃ e, construct [] (some [⟨"thumbnails", "false"⟩, ⟨"no-such-option", "1"⟩]) =
      .thrown e) ∧
    (∀ vm, storeSources [] none = .ok vm →
      ∃ k, findDescription configFileOptions k = none ∧
        construct [] (some [⟨"thumbnails", "false"⟩, ⟨"no-such-option", "1"⟩]) =
          .thrown (.unknown_option k)) :=
  unknown_configFile_key_rejected [] [⟨"thumbnails", "false"⟩, ⟨"no-such-option", "1"⟩]
    ⟨⟨"no-such-option", "1"⟩, by decide, by decide⟩

/-- Counterexample to C10 as stated: `no-such-option` is not a declared configuration-file
option; with the empty command line, the configuration file without entries constructs an
object, and the same file with the entry `no-such-option=1` added makes the constructor throw
`unknown_option`. -/
theorem unknown_configFile_key_changes_outcome :
    findDescription configFileOptions "no-such-option" = none ∧
    (∃ c, construct [] (some []) = .constructed c) ∧
    construct [] (some [⟨"no-such-option", "1"⟩]) =
      .thrown (.unknown_option "no-such-option") ∧
    construct [] (some [⟨"no-such-option", "1"⟩]) ≠ construct [] (some []) :=
  ⟨by decide, ⟨_, rfl⟩, by decide, by decide⟩

/-- C11, as the code has it: when both sources are parsed and stored without error and the
command line holds the help or the version flag, the constructor ends with `exit(1)` after
printing; it neither throws the out-of-range error nor yields an object, whatever the values of
the other options are, because the help/version check comes before the range check. -/
theorem help_or_version_exits (argv : List basic_option) (cfile : Option (List basic_option))
    (vm : variables_map) (hstore : storeSources argv cfile = .ok vm)
    (hinfo : ∃ o ∈ argv, o.string_key = "help" ∨ o.string_key = "version") :
    construct argv cfile = .exited 1 ∧
    construct argv cfile ≠ .thrown (.runtime_error "Invalid percent height specified") ∧
    ∀ c, construct argv cfile ≠ .constructed c := by
  have hexit : construct argv cfile = .exited 1 := by
    obtain ⟨o, ho, hk⟩ := hinfo
    have hcount := count_of_commandLine hstore ho
    rw [construct_of_stored hstore]
    unfold afterNotify
    rcases hk with hk | hk
    · rw [hk] at hcount
      rw [if_pos (Or.inr (by omega))]
    · rw [hk] at hcount
      rw [if_pos (Or.inl (by omega))]
  rw [hexit]
  exact ⟨rfl, by simp, by simp⟩

/-- Witness of C11: `--version --bottom-pane-height=100` on the command line and
`bottom-pane-height=0` in the configuration file. -/
theorem help_or_version_exits_witness :
    construct [⟨"version", ""⟩, ⟨"bottom-pane-height", "100"⟩]
        (some [⟨"bottom-pane-height", "0"⟩]) = .exited 1 ∧
    construct [⟨"version", ""⟩, ⟨"bottom-pane-height", "100"⟩]
        (some [⟨"bottom-pane-height", "0"⟩]) ≠
      .thrown (.runtime_error "Invalid percent height specified") ∧
    ∀ c, construct [⟨"version", ""⟩, ⟨"bottom-pane-height", "100"⟩]
        (some [⟨"bottom-pane-height", "0"⟩]) ≠ .constructed c :=
  help_or_version_exits [⟨"version", ""⟩, ⟨"bottom-pane-height", "100"⟩]
    (some [⟨"bottom-pane-height", "0"⟩])
    ((storeSources [⟨"version", ""⟩, ⟨"bottom-pane-height", "100"⟩]
      (some [⟨"bottom-pane-height", "0"⟩])).toOption.getD variables_map.empty)
    (by rfl) ⟨⟨"version", ""⟩, by decide, Or.inr rfl⟩

/-- Counterexample to C11 as stated: the command line `--help` parses and, without a
configuration file, ends with `exit(1)`; with a configuration file that holds the entry
`no-such-option=1` the same command line makes the constructor throw `unknown_option`, and the
command line `--help --thumbnails=maybe` makes it throw `invalid_option_value`: both sources are
stored before the help/version check. -/
theorem help_with_failing_store_throws :
    runParser commandLineOptions [⟨"help", ""⟩] = .ok [⟨"help", ""⟩] ∧
    construct [⟨"help", ""⟩] none = .exited 1 ∧
    construct [⟨"help", ""⟩] (some [⟨"no-such-option", "1"⟩]) =
      .thrown (.unknown_option "no-such-option") ∧
    runParser commandLineOptions [⟨"help", ""⟩, ⟨"thumbnails", "maybe"⟩] =
      .ok [⟨"help", ""⟩, ⟨"thumbnails", "maybe"⟩] ∧
    construct [⟨"help", ""⟩, ⟨"thumbnails", "maybe"⟩] none =
      .thrown (.invalid_option_value "maybe") :=
  ⟨rfl, by decide, by decide, rfl, by decide⟩

/-- C12: the implied options never change use-second-screen, the two prerender counts,
hyperlink-support, cache-to-memory, i3-workaround, bottom-pane-height, full-page or the document
path; when use-second-screen and presenter-area are both true they change nothing at all; each
of the five display options is true afterwards only if it was true before; and every constructed
object is the result of the implied options on the merged state. -/
theorem impliedOptions_only_switches_off (s : RuntimeConfiguration) :
    ((impliedOptions s).useSecondScreen = s.useSecondScreen ∧
      (impliedOptions s).prerenderPreviousPages = s.prerenderPreviousPages ∧
      (impliedOptions s).prerenderNextPages = s.prerenderNextPages ∧
      (impliedOptions s).hyperlinkSupport = s.hyperlinkSupport ∧
      (impliedOptions s).cachePDFToMemory = s.cachePDFToMemory ∧
      (impliedOptions s).i3workaround = s.i3workaround ∧
      (impliedOptions s).bottomPaneHeight = s.bottomPaneHeight ∧
      (impliedOptions s).useFullPage = s.useFullPage ∧
      (impliedOptions s).m_filePath = s.m_filePath) ∧
    (s.useSecondScreen = true → s.showPresenterArea = true → impliedOptions s = s) ∧
    (((impliedOptions s).showPresenterArea = true → s.showPresenterArea = true) ∧
      ((impliedOptions s).showThumbnails = true → s.showThumbnails = true) ∧
      ((impliedOptions s).showWallClock = true → s.showWallClock = true) ∧
      ((impliedOptions s).showPresentationClock = true → s.showPresentationClock = true) ∧
      ((impliedOptions s).showSlideClock = true → s.showSlideClock = true)) ∧
    (∀ argv cfile c, construct argv cfile = .constructed c →
      ∃ vm, storeSources argv cfile = .ok vm ∧
        c = impliedOptions { notify vm RuntimeConfiguration.onEntry with
              m_useFullPage := decide (0 < vm.count "full-page") }) := by
  refine ⟨?_, ?_, ?_, ?_⟩
  · cases s with
    | mk fp pa wc th pc sc path hl cm us i3 pp np bph =>
      cases us <;> cases pa <;>
        simp [impliedOptions, RuntimeConfiguration.useSecondScreen,
          RuntimeConfiguration.prerenderPreviousPages, RuntimeConfiguration.prerenderNextPages,
          RuntimeConfiguration.hyperlinkSupport, RuntimeConfiguration.cachePDFToMemory,
          RuntimeConfiguration.i3workaround, RuntimeConfiguration.bottomPaneHeight,
          RuntimeConfiguration.useFullPage]
  · cases s with
    | mk fp pa wc th pc sc path hl cm us i3 pp np bph =>
      intro hus hpa
      simp only [RuntimeConfiguration.useSecondScreen,
        RuntimeConfiguration.showPresenterArea] at hus hpa
      subst hus hpa
      simp [impliedOptions]
  · cases s with
    | mk fp pa wc th pc sc path hl cm us i3 pp np bph =>
      cases us <;> cases pa <;>
        simp [impliedOptions, RuntimeConfiguration.showPresenterArea,
          RuntimeConfiguration.showThumbnails, RuntimeConfiguration.showWallClock,
          RuntimeConfiguration.showPresentationClock, RuntimeConfiguration.showSlideClock]
  · intro argv cfile c hc
    obtain ⟨vm, hstore, _, _, _, _, hceq⟩ := construct_constructed hc
    exact ⟨vm, hstore, hceq⟩

/-- Witness of C12: with the second screen and the presenter area on, the wall clock off and
the other display options on, the implied options change nothing. -/
theorem impliedOptions_only_switches_off_witness :
    impliedOptions
      { m_useFullPage := true, m_showPresenterArea := true, m_showWallClock := false,
        m_showThumbnails := true, m_showPresentationClock := true, m_showSlideClock := true,
        m_filePath := "slides.pdf", m_hyperlinkSupport := true, m_cacheToMemory := true,
        m_useSecondScreen := true, m_i3workaround := false, m_prerenderPreviousPages := 3,
        m_prerenderNextPages := 10, m_bottomPaneHeightPercent := 20 } =
      { m_useFullPage := true, m_showPresenterArea := true, m_showWallClock := false,
        m_showThumbnails := true, m_showPresentationClock := true, m_showSlideClock := true,
        m_filePath := "slides.pdf", m_hyperlinkSupport := true, m_cacheToMemory := true,
        m_useSecondScreen := true, m_i3workaround := false, m_prerenderPreviousPages := 3,
        m_prerenderNextPages := 10, m_bottomPaneHeightPercent := 20 } :=
  (impliedOptions_only_switches_off
    { m_useFullPage := true, m_showPresenterArea := true, m_showWallClock := false,
      m_showThumbnails := true, m_showPresentationClock := true, m_showSlideClock := true,
      m_filePath := "slides.pdf", m_hyperlinkSupport := true, m_cacheToMemory := true,
      m_useSecondScreen := true, m_i3workaround := false, m_prerenderPreviousPages := 3,
      m_prerenderNextPages := 10, m_bottomPaneHeightPercent := 20 }).2.1 rfl rfl

/-- C13: in every state of a configuration object, `filePath()` returns a string if and only if
`filePathDefined()` is true, which holds if and only if the stored path is not the empty string;
a returned string is the stored path and is never empty; without a defined path the getter
throws the no-file-name exception; the injection of the empty string and an empty document
argument on the command line both leave the path undefined. -/
theorem filePath_ok_iff_defined (s : RuntimeConfiguration) :
    ((∃ p, s.filePath = .ok p) ↔ s.filePathDefined = true) ∧
    (s.filePathDefined = true ↔ s.m_filePath ≠ "") ∧
    (∀ p, s.filePath = .ok p → p ≠ "" ∧ p = s.m_filePath) ∧
    (s.filePathDefined = false → s.filePath = .error .noFileNameException) ∧
    ((s.setFilePath "").filePathDefined = false ∧
      (s.setFilePath "").filePath = .error .noFileNameException) ∧
    (∀ argv cfile c, (⟨"pdf-file", ""⟩ : basic_option) ∈ argv →
      construct argv cfile = .constructed c →
      c.filePathDefined = false ∧ c.filePath = .error .noFileNameException) := by
  refine ⟨?_, ?_, ?_, ?_, ⟨rfl, rfl⟩, ?_⟩
  · rcases filePath_cases s with ⟨_, hd, hf⟩ | ⟨_, hd, hf⟩
    · rw [hd, hf]
      simp
    · rw [hd, hf]
      simp
  · rcases filePath_cases s with ⟨he, hd, _⟩ | ⟨hne, hd, _⟩
    · rw [hd, he]
      simp
    · rw [hd]
      simp [hne]
  · intro p hp
    rcases filePath_cases s with ⟨_, _, hf⟩ | ⟨hne, _, hf⟩
    · rw [hf] at hp
      exact absurd hp (by simp)
    · rw [hf] at hp
      simp only [Except.ok.injEq] at hp
      subst hp
      exact ⟨hne, rfl⟩
  · intro hundef
    rcases filePath_cases s with ⟨_, _, hf⟩ | ⟨_, hd, _⟩
    · exact hf
    · rw [hd] at hundef
      exact absurd hundef (by simp)
  · intro argv cfile c hp hc
    have hpath := construct_filePath_of_positional hc hp
    rcases filePath_cases c with ⟨_, hd, hf⟩ | ⟨hne, _, _⟩
    · exact ⟨hd, hf⟩
    · exact absurd hpath hne

/-- Witness of C13: the object constructed from the command line with the empty document
argument has no defined path; after the injection of "talk.pdf" the getter returns it, and after
a further injection of the empty string the path is undefined again. -/
theorem filePath_ok_iff_defined_witness :
    ∃ c, construct [⟨"pdf-file", ""⟩] none = .constructed c ∧
      (c.filePathDefined = false ∧ c.filePath = .error .noFileNameException) ∧
      (∀ p, (c.setFilePath "talk.pdf").filePath = .ok p →
        p ≠ "" ∧ p = (c.setFilePath "talk.pdf").m_filePath) ∧
      (((c.setFilePath "talk.pdf").setFilePath "").filePathDefined = false ∧
        ((c.setFilePath "talk.pdf").setFilePath "").filePath = .error .noFileNameException) :=
  have hc : construct [⟨"pdf-file", ""⟩] none =
      .constructed
        { m_useFullPage := false, m_showPresenterArea := true, m_showWallClock := true,
          m_showThumbnails := true, m_showPresentationClock := true,
          m_showSlideClock := true, m_filePath := "", m_hyperlinkSupport := true,
          m_cacheToMemory := true, m_useSecondScreen := true, m_i3workaround := false,
          m_prerenderPreviousPages := 3, m_prerenderNextPages := 10,
          m_bottomPaneHeightPercent := 20 } := by decide
  ⟨_, hc,
    (filePath_ok_iff_defined RuntimeConfiguration.onEntry).2.2.2.2.2
      [⟨"pdf-file", ""⟩] none _ (by decide) hc,
    (filePath_ok_iff_defined
      (RuntimeConfiguration.setFilePath _ "talk.pdf")).2.2.1,
    (filePath_ok_iff_defined
      (RuntimeConfiguration.setFilePath _ "talk.pdf")).2.2.2.2.1⟩

end DSPdfViewer
